import Mathlib

/-!
Shallow embedding of the G-Assist C++ plugin SDK (`gassist_sdk.hpp`):
the length-prefixed JSON transport (`Protocol`) and the command-dispatch
runtime (`Plugin`), together with a model of the small part of
`nlohmann::json` the SDK uses (values, `dump`, `parse`, `value`,
`contains`, `operator[]`, `get<int>`).

Modelling conventions:
- Bytes are `Nat`; a C++ `std::string` is a `List Nat` of its bytes.
- `nlohmann::json` objects are `std::map<std::string, json>`: field lists
  are kept sorted by strict lexicographic byte order (`Json.wf` states the
  invariant), and `operator[]` insertion is a sorted insert.
- Numbers are modelled as integers (`Int`); the SDK reads ids and
  timestamps with `get<int>` / `value<int>` and never uses floats.
- The byte streams behind stdin/stdout are explicit lists: reading `n`
  bytes succeeds iff `n` bytes remain (a shortfall models EOF / a broken
  pipe); writing appends to the output list and always succeeds.
- C++ exceptions are explicit: fallible json accessors return
  `Except CppExc`, and dispatch returns an optional escaping exception.
-/

namespace GAssist

/-! ## JSON values (the fragment of `nlohmann::json` the SDK uses) -/

/-- A JSON value. Strings are byte lists (C++ `std::string`); object field
lists model `std::map` and are meant to be sorted by `keyLt` (see `Json.wf`). -/
inductive Json where
  | null
  | bool (b : Bool)
  | num (n : Int)
  | str (s : List Nat)
  | arr (elems : List Json)
  | obj (fields : List (List Nat × Json))

/-- Bytes of an ASCII string literal. -/
def strBytes (s : String) : List Nat := s.data.map Char.toNat

/-- Strict lexicographic byte order on keys: `std::less<std::string>`,
the ordering of `std::map` object storage. -/
def keyLt : List Nat → List Nat → Bool
  | [], [] => false
  | [], _ :: _ => true
  | _ :: _, [] => false
  | x :: xs, y :: ys => if x < y then true else if y < x then false else keyLt xs ys

/-- Sorted insert with overwrite on an equal key: `std::map::operator[]`
followed by assignment. -/
def insertField (k : List Nat) (v : Json) : List (List Nat × Json) → List (List Nat × Json)
  | [] => [(k, v)]
  | (k0, v0) :: fs =>
    if keyLt k k0 then (k, v) :: (k0, v0) :: fs
    else if k = k0 then (k, v) :: fs
    else (k0, v0) :: insertField k v fs

/-- Field lookup: `std::map::find`. -/
def lookupField (k : List Nat) : List (List Nat × Json) → Option Json
  | [] => none
  | (k0, v0) :: fs => if k0 = k then some v0 else lookupField k fs

/-- `json::contains` on an object's field list. -/
def hasKey (k : List Nat) (fs : List (List Nat × Json)) : Bool :=
  (lookupField k fs).isSome

/-- The keys of a field list are strictly ascending (the `std::map` storage
invariant). -/
def sortedKeys : List (List Nat × Json) → Bool
  | [] => true
  | [_] => true
  | (k1, _) :: (k2, v2) :: fs => keyLt k1 k2 && sortedKeys ((k2, v2) :: fs)

mutual

/-- Well-formedness: every object in the value has strictly ascending keys,
which is an invariant of `nlohmann::json` (objects are `std::map`s). -/
def Json.wf : Json → Bool
  | .null => true
  | .bool _ => true
  | .num _ => true
  | .str _ => true
  | .arr es => Json.wfList es
  | .obj fs => sortedKeys fs && Json.wfFields fs

def Json.wfList : List Json → Bool
  | [] => true
  | e :: es => e.wf && Json.wfList es

def Json.wfFields : List (List Nat × Json) → Bool
  | [] => true
  | (_, v) :: fs => v.wf && Json.wfFields fs

end

/-! ## Serialization: `json::dump()` (compact form, default arguments) -/

/-- Lowercase hex digit byte for `n < 16` (nlohmann's `\u00xx` escapes use
lowercase hex). -/
def hexDigit (n : Nat) : Nat := if n < 10 then 48 + n else 87 + n

/-- One byte of a string, JSON-escaped as `dump` emits it: the five
shorthand escapes, `\"`, `\\`, `\u00xx` for remaining control bytes,
everything else verbatim. -/
def escapeByte (b : Nat) : List Nat :=
  if b = 8 then [92, 98]
  else if b = 9 then [92, 116]
  else if b = 10 then [92, 110]
  else if b = 12 then [92, 102]
  else if b = 13 then [92, 114]
  else if b = 34 then [92, 34]
  else if b = 92 then [92, 92]
  else if b < 32 then [92, 117, 48, 48, hexDigit (b / 16), hexDigit (b % 16)]
  else [b]

/-- A whole string body, escaped. -/
def escapeString : List Nat → List Nat
  | [] => []
  | b :: bs => escapeByte b ++ escapeString bs

/-- ASCII decimal digits of `n`, most significant first; structural on a
fuel argument (any fuel at least `n` is exact). -/
def natDigitsFuel : Nat → Nat → List Nat
  | 0, n => [48 + n % 10]
  | fuel + 1, n => if n < 10 then [48 + n] else natDigitsFuel fuel (n / 10) ++ [48 + n % 10]

/-- ASCII decimal digits of `n`, most significant first. -/
def natDigits (n : Nat) : List Nat := natDigitsFuel n n

/-- ASCII decimal form of an integer: optional minus sign, then digits. -/
def intDump (i : Int) : List Nat :=
  if i < 0 then 45 :: natDigits i.natAbs else natDigits i.natAbs

mutual

/-- `json::dump()`: compact serialization to bytes. Objects are emitted in
field-list order, which for well-formed values is `std::map` key order. -/
def Json.dump : Json → List Nat
  | .null => [110, 117, 108, 108]
  | .bool true => [116, 114, 117, 101]
  | .bool false => [102, 97, 108, 115, 101]
  | .num i => intDump i
  | .str s => 34 :: (escapeString s ++ [34])
  | .arr es => 91 :: (Json.dumpItems es ++ [93])
  | .obj fs => 123 :: (Json.dumpFields fs ++ [125])

def Json.dumpItems : List Json → List Nat
  | [] => []
  | e :: es => e.dump ++ (if es.isEmpty then [] else [44]) ++ Json.dumpItems es

def Json.dumpFields : List (List Nat × Json) → List Nat
  | [] => []
  | (k, v) :: fs =>
    (34 :: (escapeString k ++ [34])) ++ 58 :: v.dump
      ++ (if fs.isEmpty then [] else [44]) ++ Json.dumpFields fs

end

/-! ## Parsing: `json::parse`

`nlohmann::json::parse` throws on any lexical or grammatical error and on
trailing input; `Protocol::read_message` catches every such exception and
reports failure, so the parser is modelled as an `Option`-returning
function. The model covers the whitespace-free language `dump` emits
(inter-token whitespace, floats and exponents are not modelled: the SDK
never produces them and no claim exercises them). -/

/-- Value of an ASCII hex digit byte, if it is one. -/
def hexVal (b : Nat) : Option Nat :=
  if 48 ≤ b ∧ b ≤ 57 then some (b - 48)
  else if 97 ≤ b ∧ b ≤ 102 then some (b - 87)
  else if 65 ≤ b ∧ b ≤ 70 then some (b - 55)
  else none

/-- UTF-8 bytes of a BMP code point (what the lexer produces for a decoded
`\uXXXX`; surrogate pairing is not modelled — `dump` only emits `\u00xx`). -/
def utf8Bytes (n : Nat) : List Nat :=
  if n < 128 then [n]
  else if n < 2048 then [192 + n / 64, 128 + n % 64]
  else [224 + n / 4096, 128 + n / 64 % 64, 128 + n % 64]

/-- The byte a single-character escape decodes to, if the escape is legal. -/
def unescapeByte (e : Nat) : Option Nat :=
  if e = 34 then some 34
  else if e = 92 then some 92
  else if e = 47 then some 47
  else if e = 98 then some 8
  else if e = 116 then some 9
  else if e = 110 then some 10
  else if e = 102 then some 12
  else if e = 114 then some 13
  else none

/-- Scan a string body after the opening quote, up to and including the
closing quote; yields the decoded bytes and the remainder. Fuelled (one
unit per step); any fuel above the input length is enough. -/
def scanString (fuel : Nat) (cs : List Nat) : Option (List Nat × List Nat) :=
  match fuel, cs with
  | 0, _ => none
  | _, [] => none
  | fuel + 1, b :: rest =>
    if b = 34 then some ([], rest)
    else if b = 92 then
      match rest with
      | [] => none
      | e :: rest1 =>
        if e = 117 then
          match rest1 with
          | h1 :: h2 :: h3 :: h4 :: rest2 =>
            match hexVal h1, hexVal h2, hexVal h3, hexVal h4 with
            | some a, some b2, some c, some d =>
              match scanString fuel rest2 with
              | some (s, r) => some (utf8Bytes (((a * 16 + b2) * 16 + c) * 16 + d) ++ s, r)
              | none => none
            | _, _, _, _ => none
          | _ => none
        else
          match unescapeByte e with
          | some u =>
            match scanString fuel rest1 with
            | some (s, r) => some (u :: s, r)
            | none => none
          | none => none
    else
      match scanString fuel rest with
      | some (s, r) => some (b :: s, r)
      | none => none

/-- Is an ASCII decimal digit byte? -/
def isDigitByte (b : Nat) : Bool := decide (48 ≤ b) && decide (b ≤ 57)

/-- Split off the longest leading run of digit bytes. -/
def grabDigits : List Nat → List Nat × List Nat
  | [] => ([], [])
  | b :: rest =>
    if isDigitByte b then
      let (ds, r) := grabDigits rest
      (b :: ds, r)
    else ([], b :: rest)

/-- Numeric value of a digit-byte run, most significant first. -/
def digitsToNat (ds : List Nat) : Nat := ds.foldl (fun a b => a * 10 + (b - 48)) 0

/-- Lex an integer token: optional minus sign, then a nonempty digit run. -/
def lexInt (cs : List Nat) : Option (Int × List Nat) :=
  match cs with
  | [] => none
  | b :: rest =>
    if b = 45 then
      let (ds, r) := grabDigits rest
      if ds.isEmpty then none else some (-(digitsToNat ds : Int), r)
    else
      let (ds, r) := grabDigits (b :: rest)
      if ds.isEmpty then none else some ((digitsToNat ds : Int), r)

mutual

/-- Parse one JSON value from the front of `cs`. Fuelled: one unit per
grammar step; `2 * cs.length + 2` is always enough. -/
def jparse (fuel : Nat) (cs : List Nat) : Option (Json × List Nat) :=
  match fuel with
  | 0 => none
  | fuel + 1 =>
    match cs with
    | [] => none
    | b :: r =>
      if b = 110 then
        match r with
        | 117 :: 108 :: 108 :: r2 => some (.null, r2)
        | _ => none
      else if b = 116 then
        match r with
        | 114 :: 117 :: 101 :: r2 => some (.bool true, r2)
        | _ => none
      else if b = 102 then
        match r with
        | 97 :: 108 :: 115 :: 101 :: r2 => some (.bool false, r2)
        | _ => none
      else if b = 34 then
        match scanString (r.length + 1) r with
        | some (s, r2) => some (.str s, r2)
        | none => none
      else if b = 91 then
        match r with
        | [] => none
        | c :: r1 =>
          if c = 93 then some (.arr [], r1)
          else
            match jparseItems fuel (c :: r1) with
            | some (es, r2) => some (.arr es, r2)
            | none => none
      else if b = 123 then
        match r with
        | [] => none
        | c :: r1 =>
          if c = 125 then some (.obj [], r1)
          else
            match jparseFields fuel (c :: r1) with
            | some (ps, r2) =>
              some (.obj (ps.foldl (fun m kv => insertField kv.1 kv.2 m) []), r2)
            | none => none
      else if b = 45 ∨ isDigitByte b then
        match lexInt (b :: r) with
        | some (i, r2) => some (.num i, r2)
        | none => none
      else none

/-- One or more comma-separated array elements, up to and including `]`. -/
def jparseItems (fuel : Nat) (cs : List Nat) : Option (List Json × List Nat) :=
  match fuel with
  | 0 => none
  | fuel + 1 =>
    match jparse fuel cs with
    | none => none
    | some (v, r) =>
      match r with
      | 44 :: r2 =>
        match jparseItems fuel r2 with
        | some (vs, r3) => some (v :: vs, r3)
        | none => none
      | 93 :: r2 => some ([v], r2)
      | _ => none

/-- One or more `"key":value` members, up to and including the closing
brace; yields the members in source order (the caller folds them into a
map, so a duplicate key keeps the last value, as `nlohmann` does). -/
def jparseFields (fuel : Nat) (cs : List Nat) :
    Option (List (List Nat × Json) × List Nat) :=
  match fuel with
  | 0 => none
  | fuel + 1 =>
    match cs with
    | 34 :: r =>
      match scanString (r.length + 1) r with
      | none => none
      | some (key, r1) =>
        match r1 with
        | 58 :: r2 =>
          match jparse fuel r2 with
          | none => none
          | some (v, r3) =>
            match r3 with
            | 44 :: r4 =>
              match jparseFields fuel r4 with
              | some (ps, r5) => some ((key, v) :: ps, r5)
              | none => none
            | 125 :: r4 => some ([(key, v)], r4)
            | _ => none
        | _ => none
    | _ => none

end

/-- `json::parse` over a whole buffer: one value, no trailing bytes. -/
def parseJson (cs : List Nat) : Option Json :=
  match jparse (2 * cs.length + 2) cs with
  | some (j, []) => some j
  | _ => none

/-! ## The `Protocol` class: length-prefixed framing over stdin/stdout -/

/-- `Protocol::MAX_MESSAGE_SIZE = 10 * 1024 * 1024`. -/
def MAX_MESSAGE_SIZE : Nat := 10 * 1024 * 1024

/-- State of a `Protocol` object together with its two byte streams:
`input` is what remains unread on stdin, `output` is everything written to
stdout so far. -/
structure Protocol where
  m_closed : Bool
  input : List Nat
  output : List Nat

namespace Protocol

/-- `read_bytes(buffer, count)`: blockingly read exactly `count` bytes.
Fails (EOF / broken pipe) iff fewer than `count` bytes remain. -/
def read_bytes (count : Nat) (s : Protocol) : Option (List Nat × Protocol) :=
  if count ≤ s.input.length then some (s.input.take count, { s with input := s.input.drop count })
  else none

/-- `write_bytes(buffer, count)`: append to stdout (always succeeds in
this model: the peer never breaks the write pipe). -/
def write_bytes (buffer : List Nat) (s : Protocol) : Bool × Protocol :=
  (true, { s with output := s.output ++ buffer })

/-- The 4-byte big-endian header of a payload length, as `write_message`
builds it: `(length >> k) & 0xFF` for `k = 24, 16, 8, 0`. -/
def encodeHeader (length : Nat) : List Nat :=
  [length / 2 ^ 24 % 256, length / 2 ^ 16 % 256, length / 2 ^ 8 % 256, length % 256]

/-- The big-endian value of a 4-byte header, as `read_message` decodes it. -/
def decodeHeader (h : List Nat) : Nat :=
  match h with
  | [b0, b1, b2, b3] => b0 * 2 ^ 24 + b1 * 2 ^ 16 + b2 * 2 ^ 8 + b3
  | _ => 0

/-- `Protocol::read_message`: returns the parsed message (or `none` on
failure) and the protocol state afterwards. -/
def read_message (s : Protocol) : Option Json × Protocol :=
  if s.m_closed then (none, s)
  else
    match read_bytes 4 s with
    | none => (none, { s with m_closed := true })
    | some (header, s1) =>
      let length := decodeHeader header
      if length > MAX_MESSAGE_SIZE ∨ length = 0 then (none, s1)
      else
        match read_bytes length s1 with
        | none => (none, { s1 with m_closed := true })
        | some (buffer, s2) =>
          match parseJson buffer with
          | some j => (some j, s2)
          | none => (none, s2)

/-- The `jsonrpc`-field injection at the top of `Protocol::write_message`:
`if (!msg.contains("jsonrpc")) msg["jsonrpc"] = "2.0";`. On a non-object,
`contains` is false and `operator[]` turns `null` into an object (for any
other type the C++ throws `type_error.305`; the SDK only ever writes
objects, so that branch is left as the identity and is never exercised). -/
def injectJsonrpc (message : Json) : Json :=
  match message with
  | .obj fs =>
    if hasKey (strBytes "jsonrpc") fs then message
    else .obj (insertField (strBytes "jsonrpc") (.str (strBytes "2.0")) fs)
  | .null => .obj [(strBytes "jsonrpc", .str (strBytes "2.0"))]
  | other => other

/-- `Protocol::write_message`: serialize (with `jsonrpc` injected), check
the size bound, then write header and payload. -/
def write_message (message : Json) (s : Protocol) : Bool × Protocol :=
  if s.m_closed then (false, s)
  else
    let payload := (injectJsonrpc message).dump
    if payload.length > MAX_MESSAGE_SIZE then (false, s)
    else
      let s1 := (write_bytes (encodeHeader payload.length) s).2
      write_bytes payload s1

/-- `Protocol::close`. -/
def close (s : Protocol) : Protocol := { s with m_closed := true }

/-- `Protocol::is_closed`. -/
def is_closed (s : Protocol) : Bool := s.m_closed

end Protocol

/-- The bytes a correctly framed payload occupies on the wire. -/
def frameBytes (payload : List Nat) : List Nat :=
  Protocol.encodeHeader payload.length ++ payload

/-! ## The `Plugin` class: command table and dispatch loop -/

/-- A C++ exception escaping into the SDK's dispatch path. `type_error c`
is `nlohmann::json::type_error` with numeric code `c`; `handler_exc` is a
handler throwing an object not derived from `std::exception` (which
`handle_execute` / `handle_input` do not catch). -/
inductive CppExc where
  | type_error (code : Nat)
  | handler_exc
deriving DecidableEq

/-- An observable side effect a command handler performs through the SDK
during its invocation: a `plugin.stream(data)` call or a
`plugin.set_keep_session(b)` call. -/
inductive HandlerOp where
  | stream_op (data : List Nat)
  | set_keep (b : Bool)

/-- How a handler invocation ends: a returned value, a thrown exception
derived from `std::exception` (carrying its `what()` string), or a thrown
object of any other type. -/
inductive HandlerOutcome where
  | ret (value : Json)
  | throw_std (what : List Nat)
  | throw_other

/-- One handler invocation, observably: the SDK calls it makes, in order,
then its outcome. -/
structure HandlerRun where
  ops : List HandlerOp
  outcome : HandlerOutcome

/-- A registered command handler (`std::function<json(const json&)>`),
modelled by its observable behaviour on each argument object. -/
def CommandHandler := Json → HandlerRun

/-- `std::map::find` on the command table. -/
def lookupCmd (k : List Nat) : List (List Nat × CommandHandler) → Option CommandHandler
  | [] => none
  | (k0, h) :: fs => if k0 = k then some h else lookupCmd k fs

/-- State of a `Plugin` object (the log file is not modelled: `log` only
appends to it and nothing reads it back). -/
structure Plugin where
  m_name : List Nat
  m_version : List Nat
  m_description : List Nat
  m_protocol : Protocol
  m_commands : List (List Nat × CommandHandler)
  m_running : Bool
  m_current_request_id : Int
  m_keep_session : Bool

/-! JSON accessors the dispatch code uses, with `nlohmann` error codes:
`value(key, default)` throws `type_error.306` on a non-object and
`type_error.302` on a type mismatch of the present value; `get<int>`
throws `type_error.302` on a non-number. -/

/-- `j.value(key, default)` for a string default. -/
def Json.valueStr (j : Json) (key dflt : List Nat) : Except CppExc (List Nat) :=
  match j with
  | .obj fs =>
    match lookupField key fs with
    | none => .ok dflt
    | some (.str s) => .ok s
    | some _ => .error (.type_error 302)
  | _ => .error (.type_error 306)

/-- `j.value(key, default)` for an integer default. A present value is
converted through `get<int>`, i.e. nlohmann's arithmetic `from_json`:
numbers are returned, a boolean converts (`true` to 1, `false` to 0),
and null/object/array/string throw `type_error.302`. -/
def Json.valueInt (j : Json) (key : List Nat) (dflt : Int) : Except CppExc Int :=
  match j with
  | .obj fs =>
    match lookupField key fs with
    | none => .ok dflt
    | some (.num n) => .ok n
    | some (.bool b) => .ok (if b then 1 else 0)
    | some _ => .error (.type_error 302)
  | _ => .error (.type_error 306)

/-- `j.value(key, default)` for a json default. -/
def Json.valueJson (j : Json) (key : List Nat) (dflt : Json) : Except CppExc Json :=
  match j with
  | .obj fs =>
    match lookupField key fs with
    | none => .ok dflt
    | some v => .ok v
  | _ => .error (.type_error 306)

/-- `j.contains(key)`. -/
def Json.containsKey (j : Json) (key : List Nat) : Bool :=
  match j with
  | .obj fs => hasKey key fs
  | _ => false

/-- `j[key]` on a const object known to contain `key` (the SDK guards the
access with `contains`); `null` on the impossible miss. -/
def Json.atKey (j : Json) (key : List Nat) : Json :=
  match j with
  | .obj fs =>
    match lookupField key fs with
    | some v => v
    | none => .null
  | _ => .null

/-- `j.get<int>()`, nlohmann's arithmetic `from_json` for `int`: the
number cases return the value, `value_t::boolean` converts (`true` to 1,
`false` to 0), and the remaining types — null, object, array, string —
throw `type_error.302`. -/
def Json.getInt (j : Json) : Except CppExc Int :=
  match j with
  | .num n => .ok n
  | .bool b => .ok (if b then 1 else 0)
  | _ => .error (.type_error 302)

/-- `j[key] = v` (`operator[]` then assignment): sorted-map insert on an
object, object creation on `null`; other receivers throw in C++
(`type_error.305`) and never occur in the SDK. -/
def Json.setField (j : Json) (key : List Nat) (v : Json) : Json :=
  match j with
  | .obj fs => .obj (insertField key v fs)
  | .null => .obj [(key, v)]
  | other => other

namespace Plugin

/-- `Plugin::stream`: a no-op unless a request is in flight, else a
`stream` notification correlated to the in-flight id. -/
def stream (data : List Nat) (st : Plugin) : Plugin :=
  if st.m_current_request_id < 0 then st
  else
    let notification :=
      (((Json.obj []).setField (strBytes "jsonrpc") (.str (strBytes "2.0"))).setField
          (strBytes "method") (.str (strBytes "stream"))).setField
        (strBytes "params")
        (((Json.obj []).setField (strBytes "request_id") (.num st.m_current_request_id)).setField
          (strBytes "data") (.str data))
    { st with m_protocol := (Protocol.write_message notification st.m_protocol).2 }

/-- `Plugin::set_keep_session`. -/
def set_keep_session (keep : Bool) (st : Plugin) : Plugin :=
  { st with m_keep_session := keep }

/-- Replay the SDK calls a handler made, in order. -/
def applyOps (ops : List HandlerOp) (st : Plugin) : Plugin :=
  ops.foldl
    (fun s op =>
      match op with
      | .stream_op d => stream d s
      | .set_keep b => set_keep_session b s)
    st

/-- The `complete` notification `Plugin::send_complete` builds. -/
def completeNotif (request_id : Int) (success : Bool) (data : Json) (keep : Bool) : Json :=
  (((Json.obj []).setField (strBytes "jsonrpc") (.str (strBytes "2.0"))).setField
      (strBytes "method") (.str (strBytes "complete"))).setField
    (strBytes "params")
    (((((Json.obj []).setField (strBytes "request_id") (.num request_id)).setField
          (strBytes "success") (.bool success)).setField
        (strBytes "data") data).setField
      (strBytes "keep_session") (.bool keep))

/-- `Plugin::send_complete`: the `complete` notification carries the
value of `m_keep_session` at the moment of sending. -/
def send_complete (request_id : Int) (success : Bool) (data : Json) (st : Plugin) : Plugin :=
  { st with
    m_protocol :=
      (Protocol.write_message (completeNotif request_id success data st.m_keep_session)
        st.m_protocol).2 }

/-- The `error` notification `Plugin::send_error` builds. -/
def errorNotif (request_id : Int) (code : Int) (message : List Nat) : Json :=
  (((Json.obj []).setField (strBytes "jsonrpc") (.str (strBytes "2.0"))).setField
      (strBytes "method") (.str (strBytes "error"))).setField
    (strBytes "params")
    ((((Json.obj []).setField (strBytes "request_id") (.num request_id)).setField
        (strBytes "code") (.num code)).setField
      (strBytes "message") (.str message))

/-- `Plugin::send_error`. -/
def send_error (request_id : Int) (code : Int) (message : List Nat) (st : Plugin) : Plugin :=
  { st with
    m_protocol := (Protocol.write_message (errorNotif request_id code message) st.m_protocol).2 }

/-- `Plugin::handle_ping`: echo the timestamp back under the request id. -/
def handle_ping (id : Int) (params : Json) (st : Plugin) : Option CppExc × Plugin :=
  match params.valueInt (strBytes "timestamp") 0 with
  | .error e => (some e, st)
  | .ok ts =>
    let response :=
      (((Json.obj []).setField (strBytes "jsonrpc") (.str (strBytes "2.0"))).setField
          (strBytes "id") (.num id)).setField
        (strBytes "result") (((Json.obj []).setField (strBytes "timestamp") (.num ts)))
    (none, { st with m_protocol := (Protocol.write_message response st.m_protocol).2 })

/-- `Plugin::handle_initialize`: metadata plus the command listing. -/
def handle_initialize (id : Int) (st : Plugin) : Option CppExc × Plugin :=
  let commands :=
    Json.arr
      (st.m_commands.map fun kv =>
        ((Json.obj []).setField (strBytes "name") (.str kv.1)).setField
          (strBytes "description") (.str []))
  let response :=
    (((Json.obj []).setField (strBytes "jsonrpc") (.str (strBytes "2.0"))).setField
        (strBytes "id") (.num id)).setField
      (strBytes "result")
      ((((((Json.obj []).setField (strBytes "name") (.str st.m_name)).setField
              (strBytes "version") (.str st.m_version)).setField
            (strBytes "description") (.str st.m_description)).setField
          (strBytes "protocol_version") (.str (strBytes "2.0"))).setField
        (strBytes "commands") commands)
  (none, { st with m_protocol := (Protocol.write_message response st.m_protocol).2 })

/-- `Plugin::handle_execute`: look up `params.function`, run the handler,
convert its outcome. Only `std::exception`-derived throws are caught; any
other thrown object unwinds past `handle_execute` (so
`m_current_request_id` is not reset on that path). -/
def handle_execute (id : Int) (params : Json) (st : Plugin) : Option CppExc × Plugin :=
  match params.valueStr (strBytes "function") [] with
  | .error e => (some e, st)
  | .ok function_name =>
    match params.valueJson (strBytes "arguments") (Json.obj []) with
    | .error e => (some e, st)
    | .ok arguments =>
      let st1 := { st with m_current_request_id := id, m_keep_session := false }
      match lookupCmd function_name st1.m_commands with
      | none =>
        let st2 := send_error id (-32601) (strBytes "Unknown command: " ++ function_name) st1
        (none, { st2 with m_current_request_id := -1 })
      | some handler =>
        let hrun := handler arguments
        let st2 := applyOps hrun.ops st1
        match hrun.outcome with
        | .ret value =>
          let st3 := send_complete id true value st2
          (none, { st3 with m_current_request_id := -1 })
        | .throw_std what =>
          let st3 := send_error id (-1) what st2
          (none, { st3 with m_current_request_id := -1 })
        | .throw_other => (some .handler_exc, st2)

/-- The acknowledgment reply `Plugin::handle_input` sends first. -/
def ackReply (id : Int) : Json :=
  (((Json.obj []).setField (strBytes "jsonrpc") (.str (strBytes "2.0"))).setField
      (strBytes "id") (.num id)).setField
    (strBytes "result") (((Json.obj []).setField (strBytes "acknowledged") (.bool true)))

/-- `Plugin::handle_input`: unconditional acknowledgment, then either the
registered `on_input` handler (with `{content: ...}`) or a default echo
`complete`. -/
def handle_input (id : Int) (params : Json) (st : Plugin) : Option CppExc × Plugin :=
  match params.valueStr (strBytes "content") [] with
  | .error e => (some e, st)
  | .ok content =>
    let st1 := { st with m_protocol := (Protocol.write_message (ackReply id) st.m_protocol).2 }
    let st2 := { st1 with m_current_request_id := id, m_keep_session := false }
    match lookupCmd (strBytes "on_input") st2.m_commands with
    | some handler =>
      let args := (Json.obj []).setField (strBytes "content") (.str content)
      let hrun := handler args
      let st3 := applyOps hrun.ops st2
      match hrun.outcome with
      | .ret value =>
        let st4 := send_complete id true value st3
        (none, { st4 with m_current_request_id := -1 })
      | .throw_std what =>
        let st4 := send_error id (-1) what st3
        (none, { st4 with m_current_request_id := -1 })
      | .throw_other => (some .handler_exc, st3)
    | none =>
      let st3 := send_complete id true (.str (strBytes "Received: " ++ content)) st2
      (none, { st3 with m_current_request_id := -1 })

/-- `Plugin::handle_message`: extract `method`, `id` (defaulting to `-1`
when absent) and `params`, then dispatch; unrecognized methods are
ignored. Extraction happens before any branch, so a type error there
(e.g. a non-numeric `id`) escapes uncaught. -/
def handle_message (message : Json) (st : Plugin) : Option CppExc × Plugin :=
  match message.valueStr (strBytes "method") [] with
  | .error e => (some e, st)
  | .ok method =>
    match
      (if message.containsKey (strBytes "id") then (message.atKey (strBytes "id")).getInt
       else .ok (-1)) with
    | .error e => (some e, st)
    | .ok id =>
      match message.valueJson (strBytes "params") (Json.obj []) with
      | .error e => (some e, st)
      | .ok params =>
        if method = strBytes "ping" then handle_ping id params st
        else if method = strBytes "initialize" then handle_initialize id st
        else if method = strBytes "execute" then handle_execute id params st
        else if method = strBytes "input" then handle_input id params st
        else if method = strBytes "shutdown" then (none, { st with m_running := false })
        else (none, st)

/-- The body of `Plugin::run` after `m_running = true`: read, dispatch,
repeat; stop on a read failure or when a dispatch clears `m_running`. The
fuel bounds the number of iterations this model unrolls; an uncaught
dispatch exception aborts the loop and is returned. -/
def loop : Nat → Plugin → Option CppExc × Plugin
  | 0, st => (none, st)
  | n + 1, st =>
    if st.m_running then
      match Protocol.read_message st.m_protocol with
      | (none, p) => (none, { st with m_protocol := p })
      | (some message, p) =>
        match handle_message message { st with m_protocol := p } with
        | (some e, st2) => (some e, st2)
        | (none, st2) => loop n st2
    else (none, st)

/-- `Plugin::run`: set `m_running` and enter the loop. -/
def run (fuel : Nat) (st : Plugin) : Option CppExc × Plugin :=
  loop fuel { st with m_running := true }

end Plugin

/-- The value `m_keep_session` holds after replaying `ops` over an initial
value `k0`: the last `set_keep_session` argument, else `k0`. -/
def keepOf (ops : List HandlerOp) (k0 : Bool) : Bool :=
  ops.foldl
    (fun k op =>
      match op with
      | .set_keep b => b
      | .stream_op _ => k)
    k0

/-- The remainder cannot extend a digit run: empty, or headed by a
non-digit byte. Every delimiter `dump` places after a number qualifies. -/
def headNonDigit : List Nat → Bool
  | [] => true
  | b :: _ => !isDigitByte b

/-- All-pairs form of the key-ordering invariant, used to reason about
sorted insertion. -/
def sortedP (fs : List (List Nat × Json)) : Prop :=
  List.Pairwise (fun p q => keyLt p.1 q.1 = true) fs

/-! ## Lemmas: the decimal integer codec -/

theorem natDigitsFuel_ne_nil (fuel n : Nat) : natDigitsFuel fuel n ≠ [] := by
  cases fuel with
  | zero => simp [natDigitsFuel]
  | succ f =>
    rw [natDigitsFuel]
    split <;> simp

theorem natDigits_ne_nil (n : Nat) : natDigits n ≠ [] := natDigitsFuel_ne_nil n n

theorem natDigitsFuel_digits (fuel : Nat) :
    ∀ n, ∀ b ∈ natDigitsFuel fuel n, 48 ≤ b ∧ b ≤ 57 := by
  induction fuel with
  | zero =>
    intro n b hb
    simp only [natDigitsFuel, List.mem_singleton] at hb
    have := Nat.mod_lt n (show 0 < 10 by omega)
    omega
  | succ f ih =>
    intro n b hb
    rw [natDigitsFuel] at hb
    split at hb
    · simp only [List.mem_singleton] at hb
      omega
    · rw [List.mem_append] at hb
      rcases hb with hb | hb
      · exact ih (n / 10) b hb
      · simp only [List.mem_singleton] at hb
        have := Nat.mod_lt n (show 0 < 10 by omega)
        omega

theorem natDigits_digits (n : Nat) : ∀ b ∈ natDigits n, 48 ≤ b ∧ b ≤ 57 :=
  natDigitsFuel_digits n n

theorem natDigits_cons (n : Nat) : ∃ d t, natDigits n = d :: t ∧ 48 ≤ d ∧ d ≤ 57 := by
  cases hnd : natDigits n with
  | nil => exact absurd hnd (natDigits_ne_nil n)
  | cons d t =>
    have hd := natDigits_digits n d (by rw [hnd]; exact List.mem_cons_self d t)
    exact ⟨d, t, rfl, hd.1, hd.2⟩

theorem digitsToNat_append_digit (ds : List Nat) (d : Nat) :
    digitsToNat (ds ++ [d]) = digitsToNat ds * 10 + (d - 48) := by
  simp [digitsToNat, List.foldl_append]

theorem digitsToNat_natDigitsFuel (fuel : Nat) :
    ∀ n, n ≤ fuel → digitsToNat (natDigitsFuel fuel n) = n := by
  induction fuel with
  | zero =>
    intro n h
    have hn : n = 0 := by omega
    subst hn
    simp [natDigitsFuel, digitsToNat]
  | succ f ih =>
    intro n h
    rw [natDigitsFuel]
    split
    · rename_i hlt
      simp only [digitsToNat, List.foldl_cons, List.foldl_nil]
      omega
    · rename_i hlt
      rw [digitsToNat_append_digit, ih (n / 10) (by omega)]
      omega

theorem digitsToNat_natDigits (n : Nat) : digitsToNat (natDigits n) = n :=
  digitsToNat_natDigitsFuel n n (Nat.le_refl n)

theorem grabDigits_stop (cs : List Nat) (h : headNonDigit cs = true) :
    grabDigits cs = ([], cs) := by
  cases cs with
  | nil => rfl
  | cons b t =>
    simp only [headNonDigit, Bool.not_eq_true'] at h
    simp [grabDigits, h]

theorem grabDigits_run (ds : List Nat) (hds : ∀ b ∈ ds, 48 ≤ b ∧ b ≤ 57)
    (rest : List Nat) (hrest : headNonDigit rest = true) :
    grabDigits (ds ++ rest) = (ds, rest) := by
  induction ds with
  | nil => simpa using grabDigits_stop rest hrest
  | cons b t ih =>
    have hb : isDigitByte b = true := by
      have := hds b (List.mem_cons_self b t)
      simp only [isDigitByte, Bool.and_eq_true, decide_eq_true_eq]
      omega
    have ht := ih fun x hx => hds x (List.mem_cons_of_mem b hx)
    simp [grabDigits, hb, ht]

theorem lexInt_intDump (i : Int) (rest : List Nat) (hrest : headNonDigit rest = true) :
    lexInt (intDump i ++ rest) = some (i, rest) := by
  rw [intDump]
  split
  · rename_i hneg
    simp only [List.cons_append, lexInt, if_pos rfl]
    rw [grabDigits_run _ (natDigits_digits _) _ hrest]
    simp only [List.isEmpty_eq_true]
    rw [if_neg (natDigits_ne_nil _)]
    rw [digitsToNat_natDigits]
    have hni : -((i.natAbs : Nat) : Int) = i := by omega
    rw [hni]
    simp
  · rename_i hpos
    obtain ⟨d, t, hdt, hd1, hd2⟩ := natDigits_cons i.natAbs
    rw [hdt]
    simp only [List.cons_append, lexInt]
    rw [if_neg (by omega : ¬d = 45)]
    have hgrab : grabDigits (d :: (t ++ rest)) = (d :: t, rest) := by
      have := grabDigits_run (d :: t) (by rw [← hdt]; exact natDigits_digits _) rest hrest
      simpa using this
    simp only [hgrab]
    simp only [List.isEmpty_cons, if_neg Bool.false_ne_true]
    have hval : digitsToNat (d :: t) = i.natAbs := by
      rw [← hdt, digitsToNat_natDigits]
    rw [hval]
    simp only [Option.some.injEq, Prod.mk.injEq, and_true]
    omega

/-! ## Lemmas: the string escape codec -/

theorem hexVal_hexDigit (d : Nat) (h : d < 16) : hexVal (hexDigit d) = some d := by
  interval_cases d <;> rfl

theorem scanString_escapeString (s : List Nat) : ∀ (fuel : Nat) (rest : List Nat),
    (escapeString s).length < fuel →
    scanString fuel (escapeString s ++ 34 :: rest) = some (s, rest) := by
  induction s with
  | nil =>
    intro fuel rest h
    cases fuel with
    | zero => omega
    | succ f => simp [scanString]
  | cons b bs ih =>
    intro fuel rest h
    rw [escapeString] at h ⊢
    rw [escapeByte] at h ⊢
    split_ifs at h ⊢ with h8 h9 h10 h12 h13 h34 h92 hctl
    · subst h8
      cases fuel with
      | zero => omega
      | succ f =>
        have hih := ih f rest (by simp at h; omega)
        simp [scanString, unescapeByte, hih]
    · subst h9
      cases fuel with
      | zero => omega
      | succ f =>
        have hih := ih f rest (by simp at h; omega)
        simp [scanString, unescapeByte, hih]
    · subst h10
      cases fuel with
      | zero => omega
      | succ f =>
        have hih := ih f rest (by simp at h; omega)
        simp [scanString, unescapeByte, hih]
    · subst h12
      cases fuel with
      | zero => omega
      | succ f =>
        have hih := ih f rest (by simp at h; omega)
        simp [scanString, unescapeByte, hih]
    · subst h13
      cases fuel with
      | zero => omega
      | succ f =>
        have hih := ih f rest (by simp at h; omega)
        simp [scanString, unescapeByte, hih]
    · subst h34
      cases fuel with
      | zero => omega
      | succ f =>
        have hih := ih f rest (by simp at h; omega)
        simp [scanString, unescapeByte, hih]
    · subst h92
      cases fuel with
      | zero => omega
      | succ f =>
        have hih := ih f rest (by simp at h; omega)
        simp [scanString, unescapeByte, hih]
    · cases fuel with
      | zero => omega
      | succ f =>
        have hih := ih f rest (by simp at h; omega)
        have hvald := hexVal_hexDigit (b / 16) (by omega)
        have hvalm := hexVal_hexDigit (b % 16) (by omega)
        have h48 : hexVal 48 = some 0 := rfl
        have hsmall : b < 128 := by omega
        simp only [scanString, List.cons_append, List.nil_append]
        norm_num [h48, hvald, hvalm, hih]
        have hval : ((0 * 16 + 0) * 16 + b / 16) * 16 + b % 16 = b := by omega
        have hval2 : b / 16 * 16 + b % 16 = b := by omega
        simp [hval, hval2, utf8Bytes, hsmall]
    · cases fuel with
      | zero => omega
      | succ f =>
        have hih := ih f rest (by simp at h; omega)
        simp [scanString, h34, h92, hih]

/-! ## Lemmas: the key order and sorted insertion -/

theorem keyLt_irrefl (a : List Nat) : keyLt a a = false := by
  induction a with
  | nil => rfl
  | cons x xs ih => simp [keyLt, ih]

theorem keyLt_trans (a : List Nat) :
    ∀ b c, keyLt a b = true → keyLt b c = true → keyLt a c = true := by
  induction a with
  | nil =>
    intro b c hab hbc
    cases b with
    | nil => simp [keyLt] at hab
    | cons y ys =>
      cases c with
      | nil => simp [keyLt] at hbc
      | cons z zs => simp [keyLt]
  | cons x xs ih =>
    intro b c hab hbc
    cases b with
    | nil => simp [keyLt] at hab
    | cons y ys =>
      cases c with
      | nil => simp [keyLt] at hbc
      | cons z zs =>
        simp only [keyLt] at hab hbc ⊢
        split_ifs at hab hbc ⊢ <;>
          first
            | rfl
            | omega
            | exact ih ys zs hab hbc

theorem keyLt_asymm {a b : List Nat} (h : keyLt a b = true) : keyLt b a = false := by
  cases hba : keyLt b a with
  | false => rfl
  | true => exact absurd (keyLt_trans a b a h hba) (by rw [keyLt_irrefl]; simp)

theorem keyLt_ne {a b : List Nat} (h : keyLt a b = true) : a ≠ b := by
  intro heq
  subst heq
  rw [keyLt_irrefl a] at h
  exact Bool.false_ne_true h

theorem keyLt_total (a : List Nat) :
    ∀ b, keyLt a b = true ∨ a = b ∨ keyLt b a = true := by
  induction a with
  | nil =>
    intro b
    cases b with
    | nil => exact Or.inr (Or.inl rfl)
    | cons y ys => exact Or.inl rfl
  | cons x xs ih =>
    intro b
    cases b with
    | nil => exact Or.inr (Or.inr rfl)
    | cons y ys =>
      rcases Nat.lt_trichotomy x y with h | h | h
      · exact Or.inl (by simp [keyLt, h])
      · subst h
        rcases ih ys with h2 | h2 | h2
        · exact Or.inl (by simp [keyLt, h2])
        · exact Or.inr (Or.inl (by rw [h2]))
        · exact Or.inr (Or.inr (by simp [keyLt, h2]))
      · exact Or.inr (Or.inr (by simp [keyLt, h]))

theorem insertField_append (k : List Nat) (v : Json) :
    ∀ acc : List (List Nat × Json), (∀ p ∈ acc, keyLt p.1 k = true) →
    insertField k v acc = acc ++ [(k, v)] := by
  intro acc
  induction acc with
  | nil => intro _; rfl
  | cons q t ih =>
    intro hall
    obtain ⟨k0, v0⟩ := q
    have h0 : keyLt k0 k = true := hall (k0, v0) (List.mem_cons_self _ _)
    rw [insertField]
    rw [if_neg (by rw [keyLt_asymm h0]; simp)]
    rw [if_neg (Ne.symm (keyLt_ne h0))]
    rw [ih fun p hp => hall p (List.mem_cons_of_mem _ hp)]
    simp

theorem sortedKeys_iff : ∀ fs : List (List Nat × Json), sortedKeys fs = true ↔ sortedP fs := by
  intro fs
  induction fs with
  | nil => simp [sortedKeys, sortedP]
  | cons q t ih =>
    obtain ⟨k0, v0⟩ := q
    cases t with
    | nil => simp [sortedKeys, sortedP]
    | cons q2 t2 =>
      obtain ⟨k2, v2⟩ := q2
      rw [sortedKeys, sortedP, List.pairwise_cons]
      constructor
      · intro h
        rw [Bool.and_eq_true] at h
        have hrest : sortedP ((k2, v2) :: t2) := ih.mp h.2
        have hk02 : keyLt k0 k2 = true := h.1
        constructor
        · intro p hp
          rcases List.mem_cons.mp hp with rfl | hp2
          · exact hk02
          · have h2all := (List.pairwise_cons.mp hrest).1 p hp2
            exact keyLt_trans k0 k2 p.1 hk02 h2all
        · exact hrest
      · intro h
        rw [Bool.and_eq_true]
        exact ⟨h.1 (k2, v2) (List.mem_cons_self _ _), ih.mpr h.2⟩

theorem foldl_insertField_aux :
    ∀ (fs acc : List (List Nat × Json)), sortedP fs →
    (∀ p ∈ acc, ∀ q ∈ fs, keyLt p.1 q.1 = true) →
    fs.foldl (fun m kv => insertField kv.1 kv.2 m) acc = acc ++ fs := by
  intro fs
  induction fs with
  | nil => intro acc _ _; simp
  | cons kv t ih =>
    intro acc hs hall
    rw [List.foldl_cons]
    rw [insertField_append kv.1 kv.2 acc fun p hp => hall p hp kv (List.mem_cons_self _ _)]
    rw [sortedP, List.pairwise_cons] at hs
    rw [ih (acc ++ [kv]) hs.2 ?_]
    · simp
    · intro p hp q hq
      rcases List.mem_append.mp hp with hp2 | hp2
      · exact hall p hp2 q (List.mem_cons_of_mem _ hq)
      · simp only [List.mem_singleton] at hp2
        subst hp2
        exact hs.1 q hq

theorem foldl_insertField_sorted (fs : List (List Nat × Json)) (h : sortedKeys fs = true) :
    fs.foldl (fun m kv => insertField kv.1 kv.2 m) [] = fs := by
  have := foldl_insertField_aux fs [] ((sortedKeys_iff fs).mp h) (by intro p hp; simp at hp)
  simpa using this

theorem insertField_lt (b k : List Nat) (v : Json) :
    ∀ fs, keyLt b k = true → (∀ p ∈ fs, keyLt b p.1 = true) →
    ∀ p ∈ insertField k v fs, keyLt b p.1 = true := by
  intro fs
  induction fs with
  | nil =>
    intro hbk _ p hp
    simp only [insertField, List.mem_singleton] at hp
    subst hp
    exact hbk
  | cons q t ih =>
    intro hbk hall p hp
    obtain ⟨k0, v0⟩ := q
    rw [insertField] at hp
    split_ifs at hp with h1 h2
    · rcases List.mem_cons.mp hp with rfl | hp2
      · exact hbk
      · exact hall p hp2
    · rcases List.mem_cons.mp hp with rfl | hp2
      · exact hbk
      · exact hall p (List.mem_cons_of_mem _ hp2)
    · rcases List.mem_cons.mp hp with rfl | hp2
      · exact hall (k0, v0) (List.mem_cons_self _ _)
      · exact ih hbk (fun x hx => hall x (List.mem_cons_of_mem _ hx)) p hp2

theorem sortedP_insertField (k : List Nat) (v : Json) :
    ∀ fs, sortedP fs → sortedP (insertField k v fs) := by
  intro fs
  induction fs with
  | nil => simp [insertField, sortedP]
  | cons q t ih =>
    intro h
    obtain ⟨k0, v0⟩ := q
    rw [sortedP, List.pairwise_cons] at h
    rw [insertField]
    split_ifs with h1 h2
    · rw [sortedP, List.pairwise_cons]
      refine ⟨?_, List.pairwise_cons.mpr h⟩
      intro p hp
      rcases List.mem_cons.mp hp with rfl | hp2
      · exact h1
      · exact keyLt_trans k k0 p.1 h1 (h.1 p hp2)
    · subst h2
      rw [sortedP, List.pairwise_cons]
      exact ⟨h.1, h.2⟩
    · rw [sortedP, List.pairwise_cons]
      constructor
      · have hk0k : keyLt k0 k = true := by
          rcases keyLt_total k k0 with ht | ht | ht
          · exact absurd ht h1
          · exact absurd ht h2
          · exact ht
        exact insertField_lt k0 k v t hk0k h.1
      · exact ih h.2

theorem sortedKeys_insertField (k : List Nat) (v : Json)
    (fs : List (List Nat × Json)) (h : sortedKeys fs = true) :
    sortedKeys (insertField k v fs) = true :=
  (sortedKeys_iff _).mpr (sortedP_insertField k v fs ((sortedKeys_iff fs).mp h))

/-! ## Lemmas: the whole-value codec round-trip -/

theorem dump_length_pos (j : Json) : 0 < (Json.dump j).length := by
  cases j with
  | null => simp [Json.dump]
  | bool b => cases b <;> simp [Json.dump]
  | num i =>
    rw [Json.dump, intDump]
    split
    · simp
    · simpa using List.length_pos.mpr (natDigits_ne_nil i.natAbs)
  | str s => simp [Json.dump]
  | arr es => simp [Json.dump]
  | obj fs => simp [Json.dump]

theorem dumpItems_nil : Json.dumpItems [] = [] := by rw [Json.dumpItems]

theorem dumpFields_nil : Json.dumpFields [] = [] := by rw [Json.dumpFields]

theorem intDump_cons (i : Int) :
    ∃ b t, intDump i = b :: t ∧ (b = 45 ∨ (48 ≤ b ∧ b ≤ 57)) := by
  rw [intDump]
  split
  · exact ⟨45, natDigits i.natAbs, rfl, Or.inl rfl⟩
  · obtain ⟨d, t, hdt, hd1, hd2⟩ := natDigits_cons i.natAbs
    exact ⟨d, t, hdt, Or.inr ⟨hd1, hd2⟩⟩

theorem dump_cons (j : Json) :
    ∃ b t, Json.dump j = b :: t ∧ ¬b = 93 ∧ ¬b = 125 := by
  cases j with
  | null => exact ⟨110, _, rfl, by omega, by omega⟩
  | bool b =>
    cases b with
    | true => exact ⟨116, _, rfl, by omega, by omega⟩
    | false => exact ⟨102, _, rfl, by omega, by omega⟩
  | num i =>
    obtain ⟨b, t, hbt, hb⟩ := intDump_cons i
    have hb' : 45 ≤ b ∧ b ≤ 57 := by rcases hb with h | h <;> omega
    exact ⟨b, t, by rw [Json.dump, hbt], by omega, by omega⟩
  | str s => exact ⟨34, _, rfl, by omega, by omega⟩
  | arr es => exact ⟨91, _, rfl, by omega, by omega⟩
  | obj fs => exact ⟨123, _, rfl, by omega, by omega⟩

theorem jparse_num_dispatch (f b : Nat) (t : List Nat) (hb : b = 45 ∨ (48 ≤ b ∧ b ≤ 57)) :
    jparse (f + 1) (b :: t)
      = (match lexInt (b :: t) with
         | some (i, r2) => some (Json.num i, r2)
         | none => none) := by
  have hb' : 45 ≤ b ∧ b ≤ 57 := by rcases hb with h | h <;> omega
  have hgrd : b = 45 ∨ isDigitByte b = true := by
    rcases hb with h | h
    · exact Or.inl h
    · refine Or.inr ?_
      simp only [isDigitByte, Bool.and_eq_true, decide_eq_true_eq]
      omega
  simp only [jparse]
  rw [if_neg (by omega : ¬b = 110), if_neg (by omega : ¬b = 116), if_neg (by omega : ¬b = 102),
      if_neg (by omega : ¬b = 34), if_neg (by omega : ¬b = 91), if_neg (by omega : ¬b = 123),
      if_pos hgrd]

theorem headNonDigit_44 (r : List Nat) : headNonDigit (44 :: r) = true := by
  simp [headNonDigit, isDigitByte]

theorem headNonDigit_93 (r : List Nat) : headNonDigit (93 :: r) = true := by
  simp [headNonDigit, isDigitByte]

theorem headNonDigit_125 (r : List Nat) : headNonDigit (125 :: r) = true := by
  simp [headNonDigit, isDigitByte]

mutual

theorem jparse_dump : ∀ (j : Json) (fuel : Nat) (rest : List Nat),
    Json.wf j = true → (Json.dump j).length < fuel → headNonDigit rest = true →
    jparse fuel (Json.dump j ++ rest) = some (j, rest)
  | .null, fuel, rest, _, hf, _ => by
    cases fuel with
    | zero => simp [Json.dump] at hf
    | succ f => simp [Json.dump, jparse]
  | .bool true, fuel, rest, _, hf, _ => by
    cases fuel with
    | zero => simp [Json.dump] at hf
    | succ f => simp [Json.dump, jparse]
  | .bool false, fuel, rest, _, hf, _ => by
    cases fuel with
    | zero => simp [Json.dump] at hf
    | succ f => simp [Json.dump, jparse]
  | .num i, fuel, rest, _, hf, hr => by
    cases fuel with
    | zero => exact absurd hf (by omega)
    | succ f =>
      obtain ⟨b, t, hbt, hb⟩ := intDump_cons i
      have hlex := lexInt_intDump i rest hr
      rw [Json.dump] at hf ⊢
      rw [hbt, List.cons_append, jparse_num_dispatch f b (t ++ rest) hb,
          ← List.cons_append, ← hbt, hlex]
  | .str s, fuel, rest, _, hf, _ => by
    cases fuel with
    | zero => exact absurd hf (by omega)
    | succ f =>
      have harg : Json.dump (.str s) ++ rest = 34 :: (escapeString s ++ 34 :: rest) := by
        simp [Json.dump]
      rw [harg]
      simp only [jparse]
      norm_num
      rw [scanString_escapeString s ((escapeString s).length + (rest.length + 1) + 1) rest
        (by omega)]
  | .arr [], fuel, rest, _, hf, _ => by
    cases fuel with
    | zero => simp [Json.dump] at hf
    | succ f => simp [Json.dump, Json.dumpItems, jparse]
  | .arr (e :: es), fuel, rest, hw, hf, _ => by
    cases fuel with
    | zero => exact absurd hf (by omega)
    | succ f =>
      have hw' : Json.wfList (e :: es) = true := by rw [Json.wf] at hw; exact hw
      have harg : Json.dump (.arr (e :: es)) ++ rest
          = 91 :: (Json.dumpItems (e :: es) ++ 93 :: rest) := by
        simp [Json.dump]
      obtain ⟨c, t, hct, hc93, _⟩ := dump_cons e
      obtain ⟨r1, hX⟩ : ∃ r1, Json.dumpItems (e :: es) ++ 93 :: rest = c :: r1 := by
        rw [Json.dumpItems, hct]
        refine ⟨t ++ ((if es.isEmpty then [] else [44]) ++ (Json.dumpItems es ++ 93 :: rest)), ?_⟩
        simp
      have hflen : (Json.dumpItems (e :: es)).length + 1 < f := by
        rw [Json.dump] at hf
        simp only [List.length_cons, List.length_append] at hf
        omega
      have hkey := jparseItems_dump e es f rest hw' hflen
      rw [harg]
      simp only [jparse]
      norm_num
      rw [hX]
      simp only [if_neg hc93]
      rw [← hX, hkey]
  | .obj [], fuel, rest, _, hf, _ => by
    cases fuel with
    | zero => simp [Json.dump] at hf
    | succ f => simp [Json.dump, Json.dumpFields, jparse]
  | .obj ((k, v) :: fs), fuel, rest, hw, hf, _ => by
    cases fuel with
    | zero => exact absurd hf (by omega)
    | succ f =>
      have hw' : sortedKeys ((k, v) :: fs) = true ∧ Json.wfFields ((k, v) :: fs) = true := by
        rw [Json.wf, Bool.and_eq_true] at hw
        exact hw
      have harg : Json.dump (.obj ((k, v) :: fs)) ++ rest
          = 123 :: (Json.dumpFields ((k, v) :: fs) ++ 125 :: rest) := by
        simp [Json.dump]
      obtain ⟨r1, hX⟩ : ∃ r1, Json.dumpFields ((k, v) :: fs) ++ 125 :: rest = 34 :: r1 := by
        rw [Json.dumpFields]
        refine ⟨escapeString k ++ 34 :: 58 :: (Json.dump v
          ++ ((if fs.isEmpty then [] else [44]) ++ (Json.dumpFields fs ++ 125 :: rest))), ?_⟩
        simp
      have hflen : (Json.dumpFields ((k, v) :: fs)).length + 1 < f := by
        rw [Json.dump] at hf
        simp only [List.length_cons, List.length_append] at hf ⊢
        omega
      have hkey := jparseFields_dump (k, v) fs f rest hw'.2 hflen
      have hfold := foldl_insertField_sorted ((k, v) :: fs) hw'.1
      rw [harg]
      simp only [jparse]
      norm_num
      rw [hX]
      simp only [if_neg (by omega : ¬(34 : Nat) = 125)]
      rw [← hX, hkey]
      simp [hfold]
  termination_by j _ _ _ _ _ => sizeOf j

theorem jparseItems_dump : ∀ (e : Json) (es : List Json) (fuel : Nat) (rest : List Nat),
    Json.wfList (e :: es) = true → (Json.dumpItems (e :: es)).length + 1 < fuel →
    jparseItems fuel (Json.dumpItems (e :: es) ++ 93 :: rest) = some (e :: es, rest)
  | e, [], fuel, rest, hw, hf => by
    cases fuel with
    | zero => omega
    | succ f =>
      have hwe : e.wf = true := by
        rw [Json.wfList, Bool.and_eq_true] at hw
        exact hw.1
      have harg : Json.dumpItems (e :: []) ++ 93 :: rest = Json.dump e ++ 93 :: rest := by
        simp [Json.dumpItems]
      have hlen : (Json.dump e).length < f := by
        have h1 : (Json.dumpItems (e :: [])).length = (Json.dump e).length := by
          simp [Json.dumpItems]
        omega
      have hval := jparse_dump e f (93 :: rest) hwe hlen (headNonDigit_93 rest)
      rw [harg]
      simp only [jparseItems]
      rw [hval]
  | e, x :: xs, fuel, rest, hw, hf => by
    cases fuel with
    | zero => omega
    | succ f =>
      have hwe : e.wf = true ∧ Json.wfList (x :: xs) = true := by
        rw [Json.wfList, Bool.and_eq_true] at hw
        exact hw
      have harg : Json.dumpItems (e :: x :: xs) ++ 93 :: rest
          = Json.dump e ++ 44 :: (Json.dumpItems (x :: xs) ++ 93 :: rest) := by
        rw [Json.dumpItems]
        simp
      have hlens : (Json.dumpItems (e :: x :: xs)).length
          = (Json.dump e).length + 1 + (Json.dumpItems (x :: xs)).length := by
        rw [Json.dumpItems]
        simp
        omega
      have hpos := dump_length_pos e
      have hlen1 : (Json.dump e).length < f := by omega
      have hlen2 : (Json.dumpItems (x :: xs)).length + 1 < f := by omega
      have hval := jparse_dump e f (44 :: (Json.dumpItems (x :: xs) ++ 93 :: rest)) hwe.1 hlen1
        (headNonDigit_44 _)
      have hrec := jparseItems_dump x xs f rest hwe.2 hlen2
      rw [harg]
      simp only [jparseItems]
      rw [hval]
      simp only []
      rw [hrec]
  termination_by e es _ _ _ _ => sizeOf e + sizeOf es

theorem jparseFields_dump : ∀ (p : List Nat × Json) (fs : List (List Nat × Json))
    (fuel : Nat) (rest : List Nat),
    Json.wfFields (p :: fs) = true → (Json.dumpFields (p :: fs)).length + 1 < fuel →
    jparseFields fuel (Json.dumpFields (p :: fs) ++ 125 :: rest) = some (p :: fs, rest)
  | (k, v), [], fuel, rest, hw, hf => by
    cases fuel with
    | zero => omega
    | succ f =>
      have hwv : v.wf = true := by
        rw [Json.wfFields, Bool.and_eq_true] at hw
        exact hw.1
      have harg : Json.dumpFields ((k, v) :: []) ++ 125 :: rest
          = 34 :: ((escapeString k ++ 34 :: (58 :: (Json.dump v ++ 125 :: rest)))) := by
        rw [Json.dumpFields]
        simp [dumpFields_nil]
      have hlen : (Json.dump v).length < f := by
        have h1 : (Json.dumpFields ((k, v) :: [])).length
            = (escapeString k).length + 3 + (Json.dump v).length := by
          rw [Json.dumpFields]
          simp [dumpFields_nil]
          omega
        omega
      have hscan := scanString_escapeString k
        ((escapeString k ++ 34 :: (58 :: (Json.dump v ++ 125 :: rest))).length + 1)
        (58 :: (Json.dump v ++ 125 :: rest)) (by simp; omega)
      have hval := jparse_dump v f (125 :: rest) hwv hlen (headNonDigit_125 rest)
      rw [harg]
      simp only [jparseFields]
      rw [hscan]
      simp only []
      rw [hval]
  | (k, v), q :: fs2, fuel, rest, hw, hf => by
    cases fuel with
    | zero => omega
    | succ f =>
      have hwv : v.wf = true ∧ Json.wfFields (q :: fs2) = true := by
        rw [Json.wfFields, Bool.and_eq_true] at hw
        exact hw
      have harg : Json.dumpFields ((k, v) :: q :: fs2) ++ 125 :: rest
          = 34 :: ((escapeString k
              ++ 34 :: (58 :: (Json.dump v
                ++ 44 :: (Json.dumpFields (q :: fs2) ++ 125 :: rest))))) := by
        rw [Json.dumpFields]
        simp
      have hlens : (Json.dumpFields ((k, v) :: q :: fs2)).length
          = (escapeString k).length + 4 + (Json.dump v).length
            + (Json.dumpFields (q :: fs2)).length := by
        rw [Json.dumpFields]
        simp
        omega
      have hlen1 : (Json.dump v).length < f := by omega
      have hlen2 : (Json.dumpFields (q :: fs2)).length + 1 < f := by omega
      have hscan := scanString_escapeString k
        ((escapeString k ++ 34 :: (58 :: (Json.dump v
          ++ 44 :: (Json.dumpFields (q :: fs2) ++ 125 :: rest)))).length + 1)
        (58 :: (Json.dump v ++ 44 :: (Json.dumpFields (q :: fs2) ++ 125 :: rest)))
        (by simp; omega)
      have hval := jparse_dump v f (44 :: (Json.dumpFields (q :: fs2) ++ 125 :: rest)) hwv.1
        hlen1 (headNonDigit_44 _)
      have hrec := jparseFields_dump q fs2 f rest hwv.2 hlen2
      rw [harg]
      simp only [jparseFields]
      rw [hscan]
      simp only []
      rw [hval]
      simp only []
      rw [hrec]
  termination_by p fs _ _ _ _ => sizeOf p + sizeOf fs

end

theorem wfFields_insertField (k : List Nat) (v : Json) (hv : v.wf = true) :
    ∀ fs, Json.wfFields fs = true → Json.wfFields (insertField k v fs) = true := by
  intro fs
  induction fs with
  | nil =>
    intro _
    simp [insertField, Json.wfFields, hv]
  | cons q t ih =>
    intro h
    obtain ⟨k0, v0⟩ := q
    have hcopy := h
    rw [Json.wfFields, Bool.and_eq_true] at h
    rw [insertField]
    split_ifs with h1 h2
    · rw [Json.wfFields, Bool.and_eq_true]
      exact ⟨hv, hcopy⟩
    · rw [Json.wfFields, Bool.and_eq_true]
      exact ⟨hv, h.2⟩
    · rw [Json.wfFields, Bool.and_eq_true]
      exact ⟨h.1, ih h.2⟩

/-- The codec round-trip at the `parse` entry point: parsing a dumped
well-formed value recovers it exactly. -/
theorem parseJson_dump (j : Json) (hw : j.wf = true) : parseJson (Json.dump j) = some j := by
  have h := jparse_dump j (2 * (Json.dump j).length + 2) [] hw (by omega) rfl
  rw [List.append_nil] at h
  rw [parseJson, h]

/-! ## Lemmas: the framing layer -/

theorem encodeHeader_length (n : Nat) : (Protocol.encodeHeader n).length = 4 := by
  simp [Protocol.encodeHeader]

theorem decodeHeader_encodeHeader (n : Nat) (h : n < 2 ^ 32) :
    Protocol.decodeHeader (Protocol.encodeHeader n) = n := by
  simp only [Protocol.encodeHeader, Protocol.decodeHeader]
  omega

/-- A successful `write_message`: exactly one frame is appended to the
output, and nothing else about the protocol state changes. -/
theorem write_message_ok (m : Json) (s : Protocol) (hc : s.m_closed = false)
    (hlen : (Json.dump (Protocol.injectJsonrpc m)).length ≤ MAX_MESSAGE_SIZE) :
    Protocol.write_message m s
      = (true, { s with
          output := s.output ++ frameBytes (Json.dump (Protocol.injectJsonrpc m)) }) := by
  rw [Protocol.write_message]
  rw [if_neg (by rw [hc]; simp)]
  simp only
  rw [if_neg (by omega)]
  simp [Protocol.write_bytes, frameBytes]

/-- `write_message` never touches the closed flag or the input stream, and
only ever appends to the output stream. -/
theorem write_message_frame_inv (m : Json) (s : Protocol) :
    ((Protocol.write_message m s).2).m_closed = s.m_closed ∧
    ((Protocol.write_message m s).2).input = s.input ∧
    ∃ t, ((Protocol.write_message m s).2).output = s.output ++ t := by
  simp only [Protocol.write_message]
  split_ifs with h1 h2
  · exact ⟨rfl, rfl, [], by simp⟩
  · exact ⟨rfl, rfl, [], by simp⟩
  · exact ⟨rfl, rfl,
      Protocol.encodeHeader (Json.dump (Protocol.injectJsonrpc m)).length
        ++ Json.dump (Protocol.injectJsonrpc m),
      by simp [Protocol.write_bytes]⟩

/-- Reading one correctly framed payload from the head of the input:
the parse result is returned and exactly that frame is consumed. -/
theorem read_message_frame (p rest out : List Nat) (hnz : p.length ≠ 0)
    (hmax : p.length ≤ MAX_MESSAGE_SIZE) :
    Protocol.read_message ⟨false, frameBytes p ++ rest, out⟩
      = (parseJson p, ⟨false, rest, out⟩) := by
  rw [Protocol.read_message]
  simp only [Bool.false_eq_true, if_neg (by simp : ¬False)]
  have hb4 : Protocol.read_bytes 4 ⟨false, frameBytes p ++ rest, out⟩
      = some (Protocol.encodeHeader p.length, ⟨false, p ++ rest, out⟩) := by
    rw [Protocol.read_bytes]
    rw [frameBytes, List.append_assoc]
    rw [if_pos (by simp [encodeHeader_length])]
    rw [List.take_left' (encodeHeader_length p.length),
        List.drop_left' (encodeHeader_length p.length)]
  rw [hb4]
  simp only
  rw [decodeHeader_encodeHeader p.length (by
    have : MAX_MESSAGE_SIZE < 2 ^ 32 := by norm_num [MAX_MESSAGE_SIZE]
    omega)]
  rw [if_neg (by omega)]
  have hbp : Protocol.read_bytes p.length ⟨false, p ++ rest, out⟩
      = some (p, ⟨false, rest, out⟩) := by
    rw [Protocol.read_bytes]
    rw [if_pos (by simp)]
    rw [List.take_left, List.drop_left]
  rw [hbp]
  cases hp : parseJson p with
  | none => simp [hp]
  | some j => simp [hp]

/-- `injectJsonrpc` preserves well-formedness on objects. -/
theorem wf_injectJsonrpc (fields : List (List Nat × Json))
    (h : (Json.obj fields).wf = true) :
    (Protocol.injectJsonrpc (Json.obj fields)).wf = true := by
  rw [Protocol.injectJsonrpc]
  split
  · exact h
  · rw [Json.wf, Bool.and_eq_true] at h ⊢
    refine ⟨sortedKeys_insertField _ _ _ h.1, wfFields_insertField _ _ ?_ _ h.2⟩
    rw [Json.wf]

/-! ## Lemmas: handler side effects -/

theorem stream_inv (d : List Nat) (st : Plugin) :
    (Plugin.stream d st).m_commands = st.m_commands ∧
    (Plugin.stream d st).m_running = st.m_running ∧
    (Plugin.stream d st).m_current_request_id = st.m_current_request_id ∧
    (Plugin.stream d st).m_keep_session = st.m_keep_session ∧
    (Plugin.stream d st).m_protocol.m_closed = st.m_protocol.m_closed ∧
    (Plugin.stream d st).m_protocol.input = st.m_protocol.input ∧
    ∃ t, (Plugin.stream d st).m_protocol.output = st.m_protocol.output ++ t := by
  rw [Plugin.stream]
  split_ifs with h
  · exact ⟨rfl, rfl, rfl, rfl, rfl, rfl, [], by simp⟩
  · obtain ⟨hc, hi, t, ht⟩ := write_message_frame_inv
      ((((Json.obj []).setField (strBytes "jsonrpc") (.str (strBytes "2.0"))).setField
          (strBytes "method") (.str (strBytes "stream"))).setField
        (strBytes "params")
        (((Json.obj []).setField (strBytes "request_id")
            (.num st.m_current_request_id)).setField (strBytes "data") (.str d)))
      st.m_protocol
    exact ⟨rfl, rfl, rfl, rfl, hc, hi, t, ht⟩

/-- Replaying handler effects never touches the command table, the running
flag, the in-flight id, the closed flag or the input stream; it only
appends to the output and drives `m_keep_session` through `keepOf`. -/
theorem applyOps_inv (ops : List HandlerOp) : ∀ st : Plugin,
    (Plugin.applyOps ops st).m_commands = st.m_commands ∧
    (Plugin.applyOps ops st).m_running = st.m_running ∧
    (Plugin.applyOps ops st).m_current_request_id = st.m_current_request_id ∧
    (Plugin.applyOps ops st).m_keep_session = keepOf ops st.m_keep_session ∧
    (Plugin.applyOps ops st).m_protocol.m_closed = st.m_protocol.m_closed ∧
    (Plugin.applyOps ops st).m_protocol.input = st.m_protocol.input ∧
    ∃ t, (Plugin.applyOps ops st).m_protocol.output = st.m_protocol.output ++ t := by
  induction ops with
  | nil =>
    intro st
    exact ⟨rfl, rfl, rfl, rfl, rfl, rfl, [], by simp [Plugin.applyOps]⟩
  | cons op rest ih =>
    intro st
    cases op with
    | stream_op d =>
      have hstep : Plugin.applyOps (HandlerOp.stream_op d :: rest) st
          = Plugin.applyOps rest (Plugin.stream d st) := by
        rw [Plugin.applyOps, Plugin.applyOps, List.foldl_cons]
      obtain ⟨s1, s2, s3, s4, s5, s6, t1, ht1⟩ := stream_inv d st
      obtain ⟨i1, i2, i3, i4, i5, i6, t2, ht2⟩ := ih (Plugin.stream d st)
      rw [hstep]
      refine ⟨by rw [i1, s1], by rw [i2, s2], by rw [i3, s3], ?_,
        by rw [i5, s5], by rw [i6, s6], t1 ++ t2, ?_⟩
      · rw [i4, s4]
        rfl
      · rw [ht2, ht1]
        simp
    | set_keep b =>
      have hstep : Plugin.applyOps (HandlerOp.set_keep b :: rest) st
          = Plugin.applyOps rest (Plugin.set_keep_session b st) := by
        rw [Plugin.applyOps, Plugin.applyOps, List.foldl_cons]
      obtain ⟨i1, i2, i3, i4, i5, i6, t2, ht2⟩ := ih (Plugin.set_keep_session b st)
      rw [hstep]
      exact ⟨i1, i2, i3, i4, i5, i6, t2, ht2⟩

/-- `read_message` on an exhausted input stream: failure, and the
transport closes. -/
theorem read_message_empty (out : List Nat) :
    Protocol.read_message ⟨false, [], out⟩ = (none, ⟨true, [], out⟩) := by
  rw [Protocol.read_message]
  simp [Protocol.read_bytes]

/-- `handle_message` reduced to its method dispatch, for a message whose
`id` field is present and numeric. -/
theorem handle_message_dispatch (msg : Json) (st : Plugin) (method : List Nat) (rid : Int)
    (params : Json)
    (hmethod : msg.valueStr (strBytes "method") [] = .ok method)
    (hid : msg.containsKey (strBytes "id") = true)
    (hidv : msg.atKey (strBytes "id") = Json.num rid)
    (hparams : msg.valueJson (strBytes "params") (Json.obj []) = .ok params) :
    Plugin.handle_message msg st
      = (if method = strBytes "ping" then Plugin.handle_ping rid params st
         else if method = strBytes "initialize" then Plugin.handle_initialize rid st
         else if method = strBytes "execute" then Plugin.handle_execute rid params st
         else if method = strBytes "input" then Plugin.handle_input rid params st
         else if method = strBytes "shutdown" then (none, { st with m_running := false })
         else (none, st)) := by
  simp only [Plugin.handle_message, hmethod, hid, hidv, if_pos, Json.getInt, hparams]

/-- `handle_execute` on a registered handler that returns a value. -/
theorem handle_execute_ret (st : Plugin) (params : Json) (fname : List Nat) (args value : Json)
    (id : Int) (h : CommandHandler) (ops : List HandlerOp)
    (hfn : params.valueStr (strBytes "function") [] = .ok fname)
    (hargs : params.valueJson (strBytes "arguments") (Json.obj []) = .ok args)
    (hlook : lookupCmd fname st.m_commands = some h)
    (hrun : h args = ⟨ops, .ret value⟩) :
    Plugin.handle_execute id params st
      = (none, { Plugin.send_complete id true value
          (Plugin.applyOps ops { st with m_current_request_id := id, m_keep_session := false })
          with m_current_request_id := -1 }) := by
  simp only [Plugin.handle_execute, hfn, hargs, hlook, hrun]

/-- `handle_execute` on a registered handler that throws a
`std::exception`-derived exception: caught, converted to an `error`
notification, loop not aborted. -/
theorem handle_execute_std (st : Plugin) (params : Json) (fname what : List Nat) (args : Json)
    (id : Int) (h : CommandHandler) (ops : List HandlerOp)
    (hfn : params.valueStr (strBytes "function") [] = .ok fname)
    (hargs : params.valueJson (strBytes "arguments") (Json.obj []) = .ok args)
    (hlook : lookupCmd fname st.m_commands = some h)
    (hrun : h args = ⟨ops, .throw_std what⟩) :
    Plugin.handle_execute id params st
      = (none, { Plugin.send_error id (-1) what
          (Plugin.applyOps ops { st with m_current_request_id := id, m_keep_session := false })
          with m_current_request_id := -1 }) := by
  simp only [Plugin.handle_execute, hfn, hargs, hlook, hrun]

/-- One iteration of the run loop when a message is read. -/
theorem loop_step (n : Nat) (st : Plugin) (msg : Json) (p : Protocol)
    (hrun : st.m_running = true)
    (hread : Protocol.read_message st.m_protocol = (some msg, p)) :
    Plugin.loop (n + 1) st
      = (match Plugin.handle_message msg { st with m_protocol := p } with
         | (some e, st2) => (some e, st2)
         | (none, st2) => Plugin.loop n st2) := by
  rw [Plugin.loop, if_pos hrun, hread]

/-- One iteration of the run loop when the read fails: the loop exits. -/
theorem loop_stop (n : Nat) (st : Plugin) (p : Protocol)
    (hrun : st.m_running = true)
    (hread : Protocol.read_message st.m_protocol = (none, p)) :
    Plugin.loop (n + 1) st = (none, { st with m_protocol := p }) := by
  rw [Plugin.loop, if_pos hrun, hread]

/-- Dispatching the concrete ping request `{"id": 7, "method": "ping"}`:
exactly the echo reply frame is appended to the output. -/
theorem handle_message_ping7 (st : Plugin) (hc : st.m_protocol.m_closed = false) :
    Plugin.handle_message
        (Json.obj [(strBytes "id", Json.num 7), (strBytes "method", Json.str (strBytes "ping"))])
        st
      = (none, { st with m_protocol := { st.m_protocol with
          output := st.m_protocol.output ++ frameBytes (Json.dump (Json.obj
            [(strBytes "id", Json.num 7), (strBytes "jsonrpc", Json.str (strBytes "2.0")),
             (strBytes "result", Json.obj [(strBytes "timestamp", Json.num 0)])])) } }) := by
  rw [handle_message_dispatch
    (Json.obj [(strBytes "id", Json.num 7), (strBytes "method", Json.str (strBytes "ping"))])
    st (strBytes "ping") 7 (Json.obj []) rfl rfl rfl rfl]
  rw [if_pos rfl]
  rw [Plugin.handle_ping]
  simp only [show (Json.obj []).valueInt (strBytes "timestamp") 0 = Except.ok 0 from rfl]
  rw [write_message_ok _ _ hc (by decide)]
  rfl

/-- Two more loop iterations after any dispatch that leaves the plugin
running with exactly one framed ping request remaining in the input:
the ping is answered and the loop then exits normally on end of input. -/
theorem loop2_after_ping_input (st2 : Plugin) (out0 : List Nat)
    (hr : st2.m_running = true)
    (hc : st2.m_protocol.m_closed = false)
    (hi : st2.m_protocol.input = frameBytes (Json.dump (Json.obj
      [(strBytes "id", Json.num 7), (strBytes "method", Json.str (strBytes "ping"))])))
    (ho : st2.m_protocol.output = out0) :
    (Plugin.loop 2 st2).1 = none ∧ (Plugin.loop 2 st2).2.m_running = true ∧
    (Plugin.loop 2 st2).2.m_protocol.output
      = out0 ++ frameBytes (Json.dump (Json.obj
          [(strBytes "id", Json.num 7), (strBytes "jsonrpc", Json.str (strBytes "2.0")),
           (strBytes "result", Json.obj [(strBytes "timestamp", Json.num 0)])])) := by
  have hp : st2.m_protocol = ⟨false, frameBytes (Json.dump (Json.obj
      [(strBytes "id", Json.num 7), (strBytes "method", Json.str (strBytes "ping"))])), out0⟩ := by
    rw [← hc, ← hi, ← ho]
  have hrd := read_message_frame (Json.dump (Json.obj
      [(strBytes "id", Json.num 7), (strBytes "method", Json.str (strBytes "ping"))]))
    [] out0 (by decide) (by decide)
  rw [List.append_nil] at hrd
  rw [parseJson_dump _ (by decide)] at hrd
  rw [loop_step 1 st2 _ ⟨false, [], out0⟩ hr (by rw [hp]; exact hrd)]
  rw [handle_message_ping7 _ rfl]
  simp only []
  rw [loop_stop 0 _ ⟨true, [], out0 ++ frameBytes (Json.dump (Json.obj
      [(strBytes "id", Json.num 7), (strBytes "jsonrpc", Json.str (strBytes "2.0")),
       (strBytes "result", Json.obj [(strBytes "timestamp", Json.num 0)])]))⟩
    (by exact hr) (by exact read_message_empty _)]
  exact ⟨rfl, by exact hr, rfl⟩

/-- `handle_input` on a registered `on_input` handler that throws a
`std::exception`-derived exception: the acknowledgment is already out,
the exception is caught at the dispatch boundary and converted to an
`error` notification, and the dispatch returns normally. -/
theorem handle_input_std (st : Plugin) (params : Json) (content what : List Nat) (id : Int)
    (h : CommandHandler) (ops : List HandlerOp)
    (hcnt : params.valueStr (strBytes "content") [] = .ok content)
    (hlook : lookupCmd (strBytes "on_input") st.m_commands = some h)
    (hrun : h ((Json.obj []).setField (strBytes "content") (.str content))
      = ⟨ops, .throw_std what⟩) :
    Plugin.handle_input id params st
      = (none, { Plugin.send_error id (-1) what
          (Plugin.applyOps ops
            { st with
              m_protocol := (Protocol.write_message (Plugin.ackReply id) st.m_protocol).2,
              m_current_request_id := id, m_keep_session := false })
          with m_current_request_id := -1 }) := by
  simp only [Plugin.handle_input, hcnt, hlook, hrun]

/-- The state an `input` dispatch with a `std::exception`-throwing
handler leaves behind: the running flag is untouched, the transport is
not closed, the input stream is untouched, and the output stream is only
extended (by the acknowledgment, the handler's streams, and the error
notification). -/
theorem input_std_state_inv (st : Plugin) (what : List Nat) (id : Int) (ops : List HandlerOp) :
    ({ Plugin.send_error id (-1) what
        (Plugin.applyOps ops
          { st with
            m_protocol := (Protocol.write_message (Plugin.ackReply id) st.m_protocol).2,
            m_current_request_id := id, m_keep_session := false })
        with m_current_request_id := (-1 : Int) } : Plugin).m_running = st.m_running ∧
    ({ Plugin.send_error id (-1) what
        (Plugin.applyOps ops
          { st with
            m_protocol := (Protocol.write_message (Plugin.ackReply id) st.m_protocol).2,
            m_current_request_id := id, m_keep_session := false })
        with m_current_request_id := (-1 : Int) } : Plugin).m_protocol.m_closed
      = st.m_protocol.m_closed ∧
    ({ Plugin.send_error id (-1) what
        (Plugin.applyOps ops
          { st with
            m_protocol := (Protocol.write_message (Plugin.ackReply id) st.m_protocol).2,
            m_current_request_id := id, m_keep_session := false })
        with m_current_request_id := (-1 : Int) } : Plugin).m_protocol.input
      = st.m_protocol.input ∧
    ∃ t, ({ Plugin.send_error id (-1) what
        (Plugin.applyOps ops
          { st with
            m_protocol := (Protocol.write_message (Plugin.ackReply id) st.m_protocol).2,
            m_current_request_id := id, m_keep_session := false })
        with m_current_request_id := (-1 : Int) } : Plugin).m_protocol.output
      = st.m_protocol.output ++ t := by
  obtain ⟨wc0, wi0, t0, wo0⟩ := write_message_frame_inv (Plugin.ackReply id) st.m_protocol
  obtain ⟨hcom, hrunn, hid2, hkeep, hclosed, hinput, t1, hout1⟩ :=
    applyOps_inv ops
      { st with
        m_protocol := (Protocol.write_message (Plugin.ackReply id) st.m_protocol).2,
        m_current_request_id := id, m_keep_session := false }
  obtain ⟨wc, wi, t2, wo⟩ := write_message_frame_inv (Plugin.errorNotif id (-1) what)
    (Plugin.applyOps ops
      { st with
        m_protocol := (Protocol.write_message (Plugin.ackReply id) st.m_protocol).2,
        m_current_request_id := id, m_keep_session := false }).m_protocol
  refine ⟨by exact hrunn, by exact wc.trans (hclosed.trans wc0),
    by exact wi.trans (hinput.trans wi0), t0 ++ t1 ++ t2, ?_⟩
  exact wo.trans (by rw [hout1]; simp [wo0, List.append_assoc])

/-! ## The claims -/

/-- C8: `close()` is idempotent, and after `close()` every `read_message`
or `write_message` call performs no I/O (the streams are untouched) and
reports failure. -/
theorem C8_close_idempotent (s : Protocol) (m : Json) :
    Protocol.close (Protocol.close s) = Protocol.close s ∧
    Protocol.read_message (Protocol.close s) = (none, Protocol.close s) ∧
    Protocol.write_message m (Protocol.close s) = (false, Protocol.close s) := by
  refine ⟨rfl, ?_, ?_⟩
  · rw [Protocol.read_message]
    simp [Protocol.close]
  · rw [Protocol.write_message]
    simp [Protocol.close]

/-- C1, counterexample: a header of value 0 makes `read_message` fail, but
the transport is NOT closed, and the very next `read_message` call on the
same transport succeeds — refuting "the transport closes (is permanently
closed, so subsequent read and write calls also fail)". -/
theorem C1_counterexample :
    (Protocol.read_message
        ⟨false, [0, 0, 0, 0] ++ frameBytes (Json.dump (Json.obj [])), []⟩).1 = none ∧
    ((Protocol.read_message
        ⟨false, [0, 0, 0, 0] ++ frameBytes (Json.dump (Json.obj [])), []⟩).2).m_closed = false ∧
    (Protocol.read_message
        ((Protocol.read_message
          ⟨false, [0, 0, 0, 0] ++ frameBytes (Json.dump (Json.obj [])), []⟩).2)).1
      = some (Json.obj []) :=
  ⟨rfl, rfl, rfl⟩

/-- C1, amended: on a header decoding to `0` or to more than
`MAX_MESSAGE_SIZE`, `read_message` returns failure without attempting to
read the payload (only the 4 header bytes are consumed), and the transport
is NOT closed: `m_closed` is unchanged, so subsequent reads and writes may
still succeed. -/
theorem C1_bad_header (s : Protocol) (b0 b1 b2 b3 : Nat) (rest : List Nat)
    (hc : s.m_closed = false) (hin : s.input = [b0, b1, b2, b3] ++ rest)
    (hbad : Protocol.decodeHeader [b0, b1, b2, b3] = 0 ∨
      Protocol.decodeHeader [b0, b1, b2, b3] > MAX_MESSAGE_SIZE) :
    Protocol.read_message s = (none, { s with input := rest }) := by
  rw [Protocol.read_message]
  rw [if_neg (by rw [hc]; simp)]
  have hb4 : Protocol.read_bytes 4 s = some ([b0, b1, b2, b3], { s with input := rest }) := by
    rw [Protocol.read_bytes]
    rw [if_pos (by rw [hin]; simp)]
    rw [hin]
    rw [List.take_left' (show ([b0, b1, b2, b3] : List Nat).length = 4 from by simp),
        List.drop_left' (show ([b0, b1, b2, b3] : List Nat).length = 4 from by simp)]
  rw [hb4]
  simp only
  rw [if_pos hbad.symm]

theorem C1_bad_header_witness :
    Protocol.read_message ⟨false, [0, 0, 0, 0] ++ [1, 2, 3], []⟩
      = (none, { (⟨false, [0, 0, 0, 0] ++ [1, 2, 3], []⟩ : Protocol) with input := [1, 2, 3] }) :=
  C1_bad_header ⟨false, [0, 0, 0, 0] ++ [1, 2, 3], []⟩ 0 0 0 0 [1, 2, 3] rfl rfl
    (Or.inl rfl)

/-- C6: `write_message` succeeds when the serialized payload is exactly
`MAX_MESSAGE_SIZE` bytes (writing the 4-byte header and the payload), and
when the payload exceeds the bound it fails without writing any bytes:
the state, output included, is returned unchanged. -/
theorem C6_write_size_boundary (m : Json) (s : Protocol) (hc : s.m_closed = false) :
    ((Json.dump (Protocol.injectJsonrpc m)).length = MAX_MESSAGE_SIZE →
      Protocol.write_message m s
        = (true, { s with
            output := s.output ++ frameBytes (Json.dump (Protocol.injectJsonrpc m)) })) ∧
    ((Json.dump (Protocol.injectJsonrpc m)).length > MAX_MESSAGE_SIZE →
      Protocol.write_message m s = (false, s)) := by
  constructor
  · intro h
    exact write_message_ok m s hc (by omega)
  · intro h
    simp only [Protocol.write_message]
    rw [if_neg (by rw [hc]; simp)]
    rw [if_pos h]

theorem escapeString_replicate_a (n : Nat) :
    escapeString (List.replicate n 97) = List.replicate n 97 := by
  induction n with
  | zero => rfl
  | succ k ih =>
    rw [List.replicate_succ, escapeString, ih]
    simp [escapeByte, List.replicate_succ]

theorem hasKey_jsonrpc_single (v : Json) :
    hasKey (strBytes "jsonrpc") [([100], v)] = false := by
  rw [hasKey, lookupField]
  rw [if_neg (by decide)]
  rfl

/-- The `jsonrpc` injection on the probe message `{"d": "a"*n}`, and the
length of its serialized form: `n + 24` bytes. -/
theorem dump_inject_probe (n : Nat) :
    (Json.dump (Protocol.injectJsonrpc
        (Json.obj [([100], Json.str (List.replicate n 97))]))).length = n + 24 := by
  have hinj : Protocol.injectJsonrpc (Json.obj [([100], Json.str (List.replicate n 97))])
      = Json.obj [([100], Json.str (List.replicate n 97)),
                  (strBytes "jsonrpc", Json.str (strBytes "2.0"))] := by
    rw [Protocol.injectJsonrpc]
    rw [if_neg (by rw [hasKey_jsonrpc_single]; simp)]
    rw [insertField]
    rw [if_neg (by decide), if_neg (by decide)]
    rw [insertField]
  rw [hinj, Json.dump, Json.dumpFields, Json.dumpFields, dumpFields_nil]
  simp [Json.dump, escapeString_replicate_a, List.length_append]
  have e1 : (escapeString [100]).length = 1 := rfl
  have e2 : (escapeString (strBytes "jsonrpc")).length = 7 := rfl
  have e3 : (escapeString (strBytes "2.0")).length = 3 := rfl
  omega

theorem C6_witness :
    (Protocol.write_message (Json.obj [([100], Json.str (List.replicate 10485736 97))])
        ⟨false, [], []⟩).1 = true ∧
    (Protocol.write_message (Json.obj [([100], Json.str (List.replicate 10485737 97))])
        ⟨false, [], []⟩).1 = false := by
  constructor
  · rw [(C6_write_size_boundary (Json.obj [([100], Json.str (List.replicate 10485736 97))])
      ⟨false, [], []⟩ rfl).1 (by rw [dump_inject_probe]; norm_num [MAX_MESSAGE_SIZE])]
  · rw [(C6_write_size_boundary (Json.obj [([100], Json.str (List.replicate 10485737 97))])
      ⟨false, [], []⟩ rfl).2 (by rw [dump_inject_probe]; norm_num [MAX_MESSAGE_SIZE])]

/-- C3: framing round-trip. For a well-formed object whose serialized
form (after the `jsonrpc` injection) is within the size bound, the write
succeeds, and reading back the exact bytes it produced reconstructs the
serialized object: `m` itself with `jsonrpc: "2.0"` inserted when it was
absent; an existing `jsonrpc` field is never overwritten (the message is
returned untouched). -/
theorem C3_framing_roundtrip (fields : List (List Nat × Json)) (ins : List Nat)
    (hw : (Json.obj fields).wf = true)
    (hlen : (Json.dump (Protocol.injectJsonrpc (Json.obj fields))).length
      ≤ MAX_MESSAGE_SIZE) :
    (Protocol.write_message (Json.obj fields) ⟨false, ins, []⟩).1 = true ∧
    Protocol.read_message
        ⟨false, ((Protocol.write_message (Json.obj fields) ⟨false, ins, []⟩).2).output, []⟩
      = (some (Protocol.injectJsonrpc (Json.obj fields)), ⟨false, [], []⟩) ∧
    (hasKey (strBytes "jsonrpc") fields = true →
      Protocol.injectJsonrpc (Json.obj fields) = Json.obj fields) ∧
    (hasKey (strBytes "jsonrpc") fields = false →
      Protocol.injectJsonrpc (Json.obj fields)
        = Json.obj (insertField (strBytes "jsonrpc") (Json.str (strBytes "2.0")) fields)) := by
  have hwm := write_message_ok (Json.obj fields) ⟨false, ins, []⟩ rfl hlen
  refine ⟨by rw [hwm], ?_, ?_, ?_⟩
  · rw [hwm]
    simp only [List.nil_append]
    have hw2 := wf_injectJsonrpc fields hw
    have hnz : (Json.dump (Protocol.injectJsonrpc (Json.obj fields))).length ≠ 0 := by
      have := dump_length_pos (Protocol.injectJsonrpc (Json.obj fields))
      omega
    have hrd := read_message_frame (Json.dump (Protocol.injectJsonrpc (Json.obj fields)))
      [] [] hnz hlen
    rw [List.append_nil] at hrd
    rw [hrd, parseJson_dump _ hw2]
  · intro h
    rw [Protocol.injectJsonrpc]
    rw [if_pos h]
  · intro h
    rw [Protocol.injectJsonrpc]
    rw [if_neg (by rw [h]; simp)]

theorem C3_witness :
    (Protocol.write_message (Json.obj [(strBytes "a", Json.num 1)]) ⟨false, [], []⟩).1 = true ∧
    (Protocol.read_message
        ⟨false,
          ((Protocol.write_message (Json.obj [(strBytes "a", Json.num 1)])
            ⟨false, [], []⟩).2).output, []⟩).1
      = some (Protocol.injectJsonrpc (Json.obj [(strBytes "a", Json.num 1)])) := by
  obtain ⟨h1, h2, h3, h4⟩ :=
    C3_framing_roundtrip [(strBytes "a", Json.num 1)] [] (by decide) (by decide)
  exact ⟨h1, by rw [h2]⟩

/-- C5: an `execute` whose `params.function` is not in the command table
emits exactly one `error` notification — code `-32601`, message
`"Unknown command: " ++ name`, correlated to the request id — and no
`complete`: the final state differs from the initial one only by that one
frame on the output, the cleared `m_current_request_id`, and the
start-of-dispatch reset of `m_keep_session`; in particular the command
table is unchanged, so subsequent dispatch is unaffected. -/
theorem C5_unknown_command (st : Plugin) (params : Json) (fname : List Nat) (args : Json)
    (id : Int)
    (hfn : params.valueStr (strBytes "function") [] = .ok fname)
    (hargs : params.valueJson (strBytes "arguments") (Json.obj []) = .ok args)
    (hlook : lookupCmd fname st.m_commands = none)
    (hc : st.m_protocol.m_closed = false)
    (hlen : (Json.dump (Protocol.injectJsonrpc
        (Plugin.errorNotif id (-32601) (strBytes "Unknown command: " ++ fname)))).length
      ≤ MAX_MESSAGE_SIZE) :
    Plugin.handle_execute id params st
      = (none, { st with
          m_protocol := { st.m_protocol with
            output := st.m_protocol.output
              ++ frameBytes (Json.dump (Protocol.injectJsonrpc
                  (Plugin.errorNotif id (-32601) (strBytes "Unknown command: " ++ fname)))) },
          m_current_request_id := -1,
          m_keep_session := false }) := by
  simp only [Plugin.handle_execute, hfn, hargs, hlook, Plugin.send_error]
  rw [write_message_ok _ _ hc hlen]

theorem C5_witness :
    (Plugin.handle_execute 5 (Json.obj [(strBytes "function", Json.str (strBytes "nope"))])
        ⟨[], [], [], ⟨false, [], []⟩, [], true, -1, false⟩).1 = none := by
  rw [C5_unknown_command ⟨[], [], [], ⟨false, [], []⟩, [], true, -1, false⟩
    (Json.obj [(strBytes "function", Json.str (strBytes "nope"))]) (strBytes "nope")
    (Json.obj []) 5 rfl rfl rfl rfl (by decide)]

/-- C4: `m_keep_session` is reset to `false` at the start of each
`execute` dispatch and of each `input` dispatch, and in both cases the
`complete` notification carries the value the flag has when the handler
returns — `keepOf ops false`, the last `set_keep_session` argument the
handler passed, or `false` if it made no such call — independently of the
flag's value before the dispatch; so a handler calling
`set_keep_session(true)` yields `keep_session = true` in that dispatch's
`complete`, and a later dispatch whose handler does not call it yields
`keep_session = false` again. -/
theorem C4_keep_session (st : Plugin) (params : Json) (fname : List Nat)
    (args value : Json) (id : Int) (h : CommandHandler) (ops : List HandlerOp)
    (hfn : params.valueStr (strBytes "function") [] = .ok fname)
    (hargs : params.valueJson (strBytes "arguments") (Json.obj []) = .ok args)
    (hlook : lookupCmd fname st.m_commands = some h)
    (hrun : h args = ⟨ops, .ret value⟩) :
    Plugin.handle_execute id params st
      = (none, { Plugin.send_complete id true value
          (Plugin.applyOps ops { st with m_current_request_id := id, m_keep_session := false })
          with m_current_request_id := -1 }) ∧
    (Plugin.applyOps ops
        { st with m_current_request_id := id, m_keep_session := false }).m_keep_session
      = keepOf ops false ∧
    (Plugin.send_complete id true value
        (Plugin.applyOps ops
          { st with m_current_request_id := id, m_keep_session := false })).m_protocol
      = (Protocol.write_message (Plugin.completeNotif id true value (keepOf ops false))
          (Plugin.applyOps ops
            { st with m_current_request_id := id, m_keep_session := false }).m_protocol).2 ∧
    (∀ (params2 : Json) (content : List Nat) (value2 : Json) (id2 : Int)
        (h2 : CommandHandler) (ops2 : List HandlerOp),
      params2.valueStr (strBytes "content") [] = .ok content →
      lookupCmd (strBytes "on_input") st.m_commands = some h2 →
      h2 ((Json.obj []).setField (strBytes "content") (.str content)) = ⟨ops2, .ret value2⟩ →
      Plugin.handle_input id2 params2 st
        = (none, { Plugin.send_complete id2 true value2
            (Plugin.applyOps ops2
              { st with
                m_protocol := (Protocol.write_message (Plugin.ackReply id2) st.m_protocol).2,
                m_current_request_id := id2, m_keep_session := false })
            with m_current_request_id := -1 }) ∧
      (Plugin.applyOps ops2
          { st with
            m_protocol := (Protocol.write_message (Plugin.ackReply id2) st.m_protocol).2,
            m_current_request_id := id2, m_keep_session := false }).m_keep_session
        = keepOf ops2 false ∧
      (Plugin.send_complete id2 true value2
          (Plugin.applyOps ops2
            { st with
              m_protocol := (Protocol.write_message (Plugin.ackReply id2) st.m_protocol).2,
              m_current_request_id := id2, m_keep_session := false })).m_protocol
        = (Protocol.write_message (Plugin.completeNotif id2 true value2 (keepOf ops2 false))
            (Plugin.applyOps ops2
              { st with
                m_protocol := (Protocol.write_message (Plugin.ackReply id2) st.m_protocol).2,
                m_current_request_id := id2, m_keep_session := false }).m_protocol).2) := by
  have hk :=
    (applyOps_inv ops { st with m_current_request_id := id, m_keep_session := false }).2.2.2.1
  rw [show ({ st with m_current_request_id := id, m_keep_session := false } :
    Plugin).m_keep_session = false from rfl] at hk
  refine ⟨handle_execute_ret st params fname args value id h ops hfn hargs hlook hrun, hk,
    by rw [Plugin.send_complete, hk], ?_⟩
  intro params2 content value2 id2 h2 ops2 hcnt hlook2 hrun2
  have hk2 :=
    (applyOps_inv ops2
      { st with
        m_protocol := (Protocol.write_message (Plugin.ackReply id2) st.m_protocol).2,
        m_current_request_id := id2, m_keep_session := false }).2.2.2.1
  rw [show ({ st with
      m_protocol := (Protocol.write_message (Plugin.ackReply id2) st.m_protocol).2,
      m_current_request_id := id2, m_keep_session := false } :
    Plugin).m_keep_session = false from rfl] at hk2
  refine ⟨by simp only [Plugin.handle_input, hcnt, hlook2, hrun2], hk2, ?_⟩
  rw [Plugin.send_complete, hk2]

theorem C4_witness :
    (Plugin.applyOps [HandlerOp.set_keep true]
        { (⟨[], [], [], ⟨false, [], []⟩,
            [(strBytes "f", fun _ => ⟨[HandlerOp.set_keep true], .ret Json.null⟩),
             (strBytes "on_input", fun _ => ⟨[], .ret (Json.str (strBytes "ok"))⟩)],
            true, -1, true⟩ : Plugin) with
          m_current_request_id := 1, m_keep_session := false }).m_keep_session = true ∧
    (Plugin.applyOps []
        { (⟨[], [], [], ⟨false, [], []⟩,
            [(strBytes "f", fun _ => ⟨[HandlerOp.set_keep true], .ret Json.null⟩),
             (strBytes "on_input", fun _ => ⟨[], .ret (Json.str (strBytes "ok"))⟩)],
            true, -1, true⟩ : Plugin) with
          m_protocol :=
            (Protocol.write_message (Plugin.ackReply 2)
              (⟨[], [], [], ⟨false, [], []⟩,
                [(strBytes "f", fun _ => ⟨[HandlerOp.set_keep true], .ret Json.null⟩),
                 (strBytes "on_input", fun _ => ⟨[], .ret (Json.str (strBytes "ok"))⟩)],
                true, -1, true⟩ : Plugin).m_protocol).2,
          m_current_request_id := 2, m_keep_session := false }).m_keep_session = false := by
  constructor
  · exact (C4_keep_session
      ⟨[], [], [], ⟨false, [], []⟩,
        [(strBytes "f", fun _ => ⟨[HandlerOp.set_keep true], .ret Json.null⟩),
         (strBytes "on_input", fun _ => ⟨[], .ret (Json.str (strBytes "ok"))⟩)], true, -1, true⟩
      (Json.obj [(strBytes "function", Json.str (strBytes "f"))]) (strBytes "f")
      (Json.obj []) Json.null 1 (fun _ => ⟨[HandlerOp.set_keep true], .ret Json.null⟩)
      [HandlerOp.set_keep true] rfl rfl rfl rfl).2.1
  · exact ((C4_keep_session
      ⟨[], [], [], ⟨false, [], []⟩,
        [(strBytes "f", fun _ => ⟨[HandlerOp.set_keep true], .ret Json.null⟩),
         (strBytes "on_input", fun _ => ⟨[], .ret (Json.str (strBytes "ok"))⟩)], true, -1, true⟩
      (Json.obj [(strBytes "function", Json.str (strBytes "f"))]) (strBytes "f")
      (Json.obj []) Json.null 1 (fun _ => ⟨[HandlerOp.set_keep true], .ret Json.null⟩)
      [HandlerOp.set_keep true] rfl rfl rfl rfl).2.2.2
      (Json.obj [(strBytes "content", Json.str (strBytes "hi"))]) (strBytes "hi")
      (Json.str (strBytes "ok")) 2 (fun _ => ⟨[], .ret (Json.str (strBytes "ok"))⟩) []
      rfl rfl rfl).2.1

/-- C7: every `input` dispatch first sends the `{acknowledged: true}`
reply correlated to the id — unconditionally, before any handler runs (it
is the innermost write in every branch below) — then: with no `on_input`
handler registered, a default `complete` carrying `"Received: " ++
content` is emitted; with one registered, it is invoked with
`{content: ...}` and its outcome is converted to `complete`/`error`
exactly as for `execute`. -/
theorem C7_input (st : Plugin) (content : List Nat) (id : Int) (params : Json)
    (hcnt : params.valueStr (strBytes "content") [] = .ok content) :
    (lookupCmd (strBytes "on_input") st.m_commands = none →
      Plugin.handle_input id params st
        = (none, { Plugin.send_complete id true (.str (strBytes "Received: " ++ content))
            { st with
              m_protocol := (Protocol.write_message (Plugin.ackReply id) st.m_protocol).2,
              m_current_request_id := id, m_keep_session := false }
            with m_current_request_id := -1 })) ∧
    (∀ (h : CommandHandler) (ops : List HandlerOp) (value : Json),
      lookupCmd (strBytes "on_input") st.m_commands = some h →
      h ((Json.obj []).setField (strBytes "content") (.str content)) = ⟨ops, .ret value⟩ →
      Plugin.handle_input id params st
        = (none, { Plugin.send_complete id true value
            (Plugin.applyOps ops
              { st with
                m_protocol := (Protocol.write_message (Plugin.ackReply id) st.m_protocol).2,
                m_current_request_id := id, m_keep_session := false })
            with m_current_request_id := -1 })) ∧
    (∀ (h : CommandHandler) (ops : List HandlerOp) (what : List Nat),
      lookupCmd (strBytes "on_input") st.m_commands = some h →
      h ((Json.obj []).setField (strBytes "content") (.str content)) = ⟨ops, .throw_std what⟩ →
      Plugin.handle_input id params st
        = (none, { Plugin.send_error id (-1) what
            (Plugin.applyOps ops
              { st with
                m_protocol := (Protocol.write_message (Plugin.ackReply id) st.m_protocol).2,
                m_current_request_id := id, m_keep_session := false })
            with m_current_request_id := -1 })) := by
  refine ⟨?_, ?_, ?_⟩
  · intro hlook
    simp only [Plugin.handle_input, hcnt, hlook]
  · intro h ops value hlook hrun
    simp only [Plugin.handle_input, hcnt, hlook, hrun]
  · intro h ops what hlook hrun
    simp only [Plugin.handle_input, hcnt, hlook, hrun]

theorem C7_witness :
    (Plugin.handle_input 3 (Json.obj [(strBytes "content", Json.str (strBytes "hi"))])
        ⟨[], [], [], ⟨false, [], []⟩, [], true, -1, false⟩).1 = none := by
  rw [(C7_input ⟨[], [], [], ⟨false, [], []⟩, [], true, -1, false⟩ (strBytes "hi") 3
    (Json.obj [(strBytes "content", Json.str (strBytes "hi"))]) rfl).1 rfl]

set_option maxRecDepth 100000 in
/-- C10, counterexample: a `ping` whose `id` field is the boolean `true`
— a non-numeric id — is dispatched normally, refuting "for every inbound
message containing an id field whose value is non-numeric, extracting the
id raises an exception ... so run() terminates abnormally": nlohmann's
`get<int>` converts the boolean to `1`, no exception is raised, the reply
for id `1` is written, and `run()` exits normally at end of input. -/
theorem C10_counterexample :
    (Plugin.handle_message
        (Json.obj [(strBytes "id", Json.bool true),
                   (strBytes "method", Json.str (strBytes "ping"))])
        ⟨[], [], [], ⟨false, [], []⟩, [], true, -1, false⟩).1 = none ∧
    (Plugin.handle_message
        (Json.obj [(strBytes "id", Json.bool true),
                   (strBytes "method", Json.str (strBytes "ping"))])
        ⟨[], [], [], ⟨false, [], []⟩, [], true, -1, false⟩).2.m_protocol.output
      = frameBytes (Json.dump (Json.obj
          [(strBytes "id", Json.num 1), (strBytes "jsonrpc", Json.str (strBytes "2.0")),
           (strBytes "result", Json.obj [(strBytes "timestamp", Json.num 0)])])) ∧
    (Plugin.run 2
        ⟨[], [], [],
          ⟨false, frameBytes (Json.dump (Json.obj
            [(strBytes "id", Json.bool true),
             (strBytes "method", Json.str (strBytes "ping"))])), []⟩,
          [], false, -1, false⟩).1 = none :=
  ⟨rfl, rfl, rfl⟩

/-- C10, amended: dispatch is total only for messages whose `id` field,
when present, is a JSON number or a boolean. An `id` of JSON type null,
string, array or object makes `message["id"].get<int>()` throw
`type_error.302`, which neither `handle_message` nor the `run()` loop
catches: dispatch returns the exception with the state untouched (no
reply is written), and `run()` terminates abnormally with that exception
instead of replying or ignoring the message. A boolean `id`, however, is
converted by nlohmann's arithmetic `from_json` (`true` to 1, `false` to
0) and the message is dispatched normally under that id. -/
theorem C10_nonnumeric_id (st : Plugin) (msg : Json) (method : List Nat)
    (hmethod : msg.valueStr (strBytes "method") [] = .ok method)
    (hhasid : msg.containsKey (strBytes "id") = true) :
    (∀ idv : Json, msg.atKey (strBytes "id") = idv →
      (∀ n : Int, idv ≠ Json.num n) → (∀ b : Bool, idv ≠ Json.bool b) →
      Plugin.handle_message msg st = (some (CppExc.type_error 302), st) ∧
      (∀ (fuel : Nat) (rest outs : List Nat),
        st.m_protocol = ⟨false, frameBytes (Json.dump msg) ++ rest, outs⟩ →
        msg.wf = true → (Json.dump msg).length ≤ MAX_MESSAGE_SIZE →
        Plugin.run (fuel + 1) st
          = (some (CppExc.type_error 302),
             { st with m_running := true, m_protocol := ⟨false, rest, outs⟩ }))) ∧
    (∀ (b : Bool) (params : Json),
      msg.atKey (strBytes "id") = Json.bool b →
      msg.valueJson (strBytes "params") (Json.obj []) = .ok params →
      Plugin.handle_message msg st
        = (if method = strBytes "ping"
            then Plugin.handle_ping (if b then 1 else 0) params st
           else if method = strBytes "initialize"
            then Plugin.handle_initialize (if b then 1 else 0) st
           else if method = strBytes "execute"
            then Plugin.handle_execute (if b then 1 else 0) params st
           else if method = strBytes "input"
            then Plugin.handle_input (if b then 1 else 0) params st
           else if method = strBytes "shutdown" then (none, { st with m_running := false })
           else (none, st))) := by
  constructor
  · intro idv hidv hnotnum hnotbool
    have hgetint : idv.getInt = Except.error (CppExc.type_error 302) := by
      cases idv with
      | num n => exact absurd rfl (hnotnum n)
      | bool b => exact absurd rfl (hnotbool b)
      | null => rfl
      | str s => rfl
      | arr es => rfl
      | obj fs => rfl
    have hpart : ∀ s : Plugin,
        Plugin.handle_message msg s = (some (CppExc.type_error 302), s) := by
      intro s
      simp only [Plugin.handle_message, hmethod, hhasid, hidv, hgetint]
      simp
    refine ⟨hpart st, ?_⟩
    intro fuel rest outs hproto hwf hlen
    have hrd := read_message_frame (Json.dump msg) rest outs
      (by have := dump_length_pos msg; omega) hlen
    rw [parseJson_dump msg hwf] at hrd
    rw [Plugin.run, Plugin.loop]
    simp only [show ({ st with m_running := true } : Plugin).m_running = true from rfl, if_true,
      show ({ st with m_running := true } : Plugin).m_protocol = st.m_protocol from rfl]
    rw [hproto, hrd]
    simp only [hpart]
  · intro b params hidb hparams
    cases b with
    | false =>
      simp only [Plugin.handle_message, hmethod, hhasid, hidb, hparams, Json.getInt]
      simp
    | true =>
      simp only [Plugin.handle_message, hmethod, hhasid, hidb, hparams, Json.getInt]
      simp

set_option maxRecDepth 100000 in
/-- C2, counterexample: a handler that throws an object NOT derived from
`std::exception` (`throw_other`) is not caught by any dispatch-boundary
handler: the exception propagates out of `run()`, which terminates
abnormally — refuting "no handler exception of any kind ever propagates
out of run()". -/
theorem C2_counterexample :
    (Plugin.run 5
        ⟨[], [], [],
          ⟨false,
            frameBytes (Json.dump (Json.obj
              [(strBytes "id", Json.num 1), (strBytes "method", Json.str (strBytes "execute")),
               (strBytes "params",
                Json.obj [(strBytes "function", Json.str (strBytes "boom"))])])), []⟩,
          [(strBytes "boom", fun _ => ⟨[], .throw_other⟩)], false, -1, false⟩).1
      = some CppExc.handler_exc := rfl

/-- C2, amended: for every `execute` or `input` dispatch whose handler
throws an exception derived from `std::exception`, the runtime catches it
at the dispatch boundary and emits an `error` notification carrying the
exception's message, correlated to the request id; such an exception
never propagates out of `run()`, `run()` does not terminate abnormally,
and the loop continues processing subsequent messages — a subsequent
`ping` still receives a reply. (An exception NOT derived from
`std::exception` is not caught and does propagate, see the
counterexample.) -/
theorem C2_std_exceptions_contained :
    (∀ (st : Plugin) (params : Json) (fname what : List Nat) (args : Json) (id : Int)
        (h : CommandHandler) (ops : List HandlerOp),
      params.valueStr (strBytes "function") [] = .ok fname →
      params.valueJson (strBytes "arguments") (Json.obj []) = .ok args →
      lookupCmd fname st.m_commands = some h →
      h args = ⟨ops, .throw_std what⟩ →
      Plugin.handle_execute id params st
        = (none, { Plugin.send_error id (-1) what
            (Plugin.applyOps ops { st with m_current_request_id := id, m_keep_session := false })
            with m_current_request_id := -1 })) ∧
    (∀ (st : Plugin) (params : Json) (content what : List Nat) (id : Int)
        (h : CommandHandler) (ops : List HandlerOp),
      params.valueStr (strBytes "content") [] = .ok content →
      lookupCmd (strBytes "on_input") st.m_commands = some h →
      h ((Json.obj []).setField (strBytes "content") (.str content)) = ⟨ops, .throw_std what⟩ →
      Plugin.handle_input id params st
        = (none, { Plugin.send_error id (-1) what
            (Plugin.applyOps ops
              { st with
                m_protocol := (Protocol.write_message (Plugin.ackReply id) st.m_protocol).2,
                m_current_request_id := id, m_keep_session := false })
            with m_current_request_id := -1 })) ∧
    (∀ (st : Plugin) (msg params : Json) (fname what : List Nat) (args : Json) (rid : Int)
        (h : CommandHandler) (ops : List HandlerOp) (outs : List Nat),
      msg.wf = true →
      (Json.dump msg).length ≤ MAX_MESSAGE_SIZE →
      msg.valueStr (strBytes "method") [] = .ok (strBytes "execute") →
      msg.containsKey (strBytes "id") = true →
      msg.atKey (strBytes "id") = Json.num rid →
      msg.valueJson (strBytes "params") (Json.obj []) = .ok params →
      params.valueStr (strBytes "function") [] = .ok fname →
      params.valueJson (strBytes "arguments") (Json.obj []) = .ok args →
      lookupCmd fname st.m_commands = some h →
      h args = ⟨ops, .throw_std what⟩ →
      st.m_protocol = ⟨false,
        frameBytes (Json.dump msg) ++ frameBytes (Json.dump (Json.obj
          [(strBytes "id", Json.num 7), (strBytes "method", Json.str (strBytes "ping"))])),
        outs⟩ →
      (Plugin.run 3 st).1 = none ∧
      (Plugin.run 3 st).2.m_running = true ∧
      ∃ mid, (Plugin.run 3 st).2.m_protocol.output
        = outs ++ mid ++ frameBytes (Json.dump (Json.obj
            [(strBytes "id", Json.num 7), (strBytes "jsonrpc", Json.str (strBytes "2.0")),
             (strBytes "result", Json.obj [(strBytes "timestamp", Json.num 0)])]))) ∧
    (∀ (st : Plugin) (msg params : Json) (content what : List Nat) (rid : Int)
        (h : CommandHandler) (ops : List HandlerOp) (outs : List Nat),
      msg.wf = true →
      (Json.dump msg).length ≤ MAX_MESSAGE_SIZE →
      msg.valueStr (strBytes "method") [] = .ok (strBytes "input") →
      msg.containsKey (strBytes "id") = true →
      msg.atKey (strBytes "id") = Json.num rid →
      msg.valueJson (strBytes "params") (Json.obj []) = .ok params →
      params.valueStr (strBytes "content") [] = .ok content →
      lookupCmd (strBytes "on_input") st.m_commands = some h →
      h ((Json.obj []).setField (strBytes "content") (.str content)) = ⟨ops, .throw_std what⟩ →
      st.m_protocol = ⟨false,
        frameBytes (Json.dump msg) ++ frameBytes (Json.dump (Json.obj
          [(strBytes "id", Json.num 7), (strBytes "method", Json.str (strBytes "ping"))])),
        outs⟩ →
      (Plugin.run 3 st).1 = none ∧
      (Plugin.run 3 st).2.m_running = true ∧
      ∃ mid, (Plugin.run 3 st).2.m_protocol.output
        = outs ++ mid ++ frameBytes (Json.dump (Json.obj
            [(strBytes "id", Json.num 7), (strBytes "jsonrpc", Json.str (strBytes "2.0")),
             (strBytes "result", Json.obj [(strBytes "timestamp", Json.num 0)])]))) := by
  refine ⟨?_, ?_, ?_, ?_⟩
  · intro st params fname what args id h ops hfn hargs hlook hrun
    exact handle_execute_std st params fname what args id h ops hfn hargs hlook hrun
  · intro st params content what id h ops hcnt hlook hrun
    exact handle_input_std st params content what id h ops hcnt hlook hrun
  · intro st msg params fname what args rid h ops outs hwf hlen hmethod hhasid hidv hparams
      hfn hargs hlook hrun hproto
    have hrd1 := read_message_frame (Json.dump msg)
      (frameBytes (Json.dump (Json.obj
        [(strBytes "id", Json.num 7), (strBytes "method", Json.str (strBytes "ping"))]))) outs
      (by have := dump_length_pos msg; omega) hlen
    rw [parseJson_dump msg hwf] at hrd1
    rw [Plugin.run]
    rw [loop_step 2 { st with m_running := true } msg
      ⟨false, frameBytes (Json.dump (Json.obj
        [(strBytes "id", Json.num 7), (strBytes "method", Json.str (strBytes "ping"))])), outs⟩
      rfl
      (by rw [show ({ st with m_running := true } : Plugin).m_protocol = st.m_protocol from rfl,
            hproto]
          exact hrd1)]
    rw [handle_message_dispatch msg _ (strBytes "execute") rid params hmethod hhasid hidv hparams]
    rw [if_neg (by decide), if_neg (by decide), if_pos rfl]
    rw [handle_execute_std _ params fname what args rid h ops hfn hargs (by exact hlook) hrun]
    simp only []
    obtain ⟨hcom, hrunn, hid2, hkeep, hclosed, hinput, t1, hout1⟩ :=
      applyOps_inv ops
        { { { st with m_running := true } with
            m_protocol := ⟨false, frameBytes (Json.dump (Json.obj
              [(strBytes "id", Json.num 7), (strBytes "method", Json.str (strBytes "ping"))])),
              outs⟩ } with
          m_current_request_id := rid, m_keep_session := false }
    obtain ⟨wc, wi, t2, wo⟩ := write_message_frame_inv
      (Plugin.errorNotif rid (-1) what)
      (Plugin.applyOps ops
        { { { st with m_running := true } with
            m_protocol := ⟨false, frameBytes (Json.dump (Json.obj
              [(strBytes "id", Json.num 7), (strBytes "method", Json.str (strBytes "ping"))])),
              outs⟩ } with
          m_current_request_id := rid, m_keep_session := false }).m_protocol
    refine ⟨?_, ?_, t1 ++ t2, ?_⟩
    · exact (loop2_after_ping_input _ (outs ++ t1 ++ t2) (by exact hrunn)
        (by exact wc.trans hclosed) (by exact wi.trans hinput)
        (by exact wo.trans (by rw [hout1]))).1
    · exact (loop2_after_ping_input _ (outs ++ t1 ++ t2) (by exact hrunn)
        (by exact wc.trans hclosed) (by exact wi.trans hinput)
        (by exact wo.trans (by rw [hout1]))).2.1
    · exact (loop2_after_ping_input _ (outs ++ (t1 ++ t2)) (by exact hrunn)
        (by exact wc.trans hclosed) (by exact wi.trans hinput)
        (by exact wo.trans (by rw [hout1]; simp [List.append_assoc]))).2.2
  · intro st msg params content what rid h ops outs hwf hlen hmethod hhasid hidv hparams
      hcnt hlook hrun hproto
    have hrd1 := read_message_frame (Json.dump msg)
      (frameBytes (Json.dump (Json.obj
        [(strBytes "id", Json.num 7), (strBytes "method", Json.str (strBytes "ping"))]))) outs
      (by have := dump_length_pos msg; omega) hlen
    rw [parseJson_dump msg hwf] at hrd1
    rw [Plugin.run]
    rw [loop_step 2 { st with m_running := true } msg
      ⟨false, frameBytes (Json.dump (Json.obj
        [(strBytes "id", Json.num 7), (strBytes "method", Json.str (strBytes "ping"))])), outs⟩
      rfl
      (by rw [show ({ st with m_running := true } : Plugin).m_protocol = st.m_protocol from rfl,
            hproto]
          exact hrd1)]
    rw [handle_message_dispatch msg _ (strBytes "input") rid params hmethod hhasid hidv hparams]
    rw [if_neg (by decide), if_neg (by decide), if_neg (by decide), if_pos rfl]
    rw [handle_input_std _ params content what rid h ops hcnt (by exact hlook) hrun]
    simp only []
    obtain ⟨ir, ic, ii, t3, io⟩ := input_std_state_inv
      { { st with m_running := true } with
        m_protocol := ⟨false, frameBytes (Json.dump (Json.obj
          [(strBytes "id", Json.num 7), (strBytes "method", Json.str (strBytes "ping"))])),
          outs⟩ } what rid ops
    refine ⟨?_, ?_, t3, ?_⟩
    · exact (loop2_after_ping_input _ (outs ++ t3) (by exact ir) (by exact ic)
        (by exact ii) (by exact io)).1
    · exact (loop2_after_ping_input _ (outs ++ t3) (by exact ir) (by exact ic)
        (by exact ii) (by exact io)).2.1
    · exact (loop2_after_ping_input _ (outs ++ t3) (by exact ir) (by exact ic)
        (by exact ii) (by exact io)).2.2

theorem C2_witness :
    (Plugin.handle_execute 1 (Json.obj [(strBytes "function", Json.str (strBytes "f"))])
        ⟨[], [], [], ⟨false, [], []⟩,
          [(strBytes "f", fun _ => ⟨[], .throw_std (strBytes "bad")⟩)], true, -1, false⟩).1
      = none ∧
    (Plugin.handle_input 1 (Json.obj [(strBytes "content", Json.str (strBytes "hi"))])
        ⟨[], [], [], ⟨false, [], []⟩,
          [(strBytes "on_input", fun _ => ⟨[], .throw_std (strBytes "bad")⟩)],
          true, -1, false⟩).1
      = none ∧
    (Plugin.run 3
        ⟨[], [], [],
          ⟨false,
            frameBytes (Json.dump (Json.obj
              [(strBytes "id", Json.num 1), (strBytes "method", Json.str (strBytes "execute")),
               (strBytes "params",
                Json.obj [(strBytes "function", Json.str (strBytes "f"))])]))
            ++ frameBytes (Json.dump (Json.obj
              [(strBytes "id", Json.num 7), (strBytes "method", Json.str (strBytes "ping"))])),
            []⟩,
          [(strBytes "f", fun _ => ⟨[], .throw_std (strBytes "bad")⟩)], false, -1, false⟩).1
      = none ∧
    (Plugin.run 3
        ⟨[], [], [],
          ⟨false,
            frameBytes (Json.dump (Json.obj
              [(strBytes "id", Json.num 2), (strBytes "method", Json.str (strBytes "input")),
               (strBytes "params",
                Json.obj [(strBytes "content", Json.str (strBytes "hi"))])]))
            ++ frameBytes (Json.dump (Json.obj
              [(strBytes "id", Json.num 7), (strBytes "method", Json.str (strBytes "ping"))])),
            []⟩,
          [(strBytes "on_input", fun _ => ⟨[], .throw_std (strBytes "bad")⟩)],
          false, -1, false⟩).1
      = none := by
  refine ⟨?_, ?_, ?_, ?_⟩
  · rw [C2_std_exceptions_contained.1
      ⟨[], [], [], ⟨false, [], []⟩,
        [(strBytes "f", fun _ => ⟨[], .throw_std (strBytes "bad")⟩)], true, -1, false⟩
      (Json.obj [(strBytes "function", Json.str (strBytes "f"))]) (strBytes "f")
      (strBytes "bad") (Json.obj []) 1 (fun _ => ⟨[], .throw_std (strBytes "bad")⟩) []
      rfl rfl rfl rfl]
  · rw [C2_std_exceptions_contained.2.1
      ⟨[], [], [], ⟨false, [], []⟩,
        [(strBytes "on_input", fun _ => ⟨[], .throw_std (strBytes "bad")⟩)], true, -1, false⟩
      (Json.obj [(strBytes "content", Json.str (strBytes "hi"))]) (strBytes "hi")
      (strBytes "bad") 1 (fun _ => ⟨[], .throw_std (strBytes "bad")⟩) []
      rfl rfl rfl]
  · exact (C2_std_exceptions_contained.2.2.1
      ⟨[], [], [],
        ⟨false,
          frameBytes (Json.dump (Json.obj
            [(strBytes "id", Json.num 1), (strBytes "method", Json.str (strBytes "execute")),
             (strBytes "params",
              Json.obj [(strBytes "function", Json.str (strBytes "f"))])]))
          ++ frameBytes (Json.dump (Json.obj
            [(strBytes "id", Json.num 7), (strBytes "method", Json.str (strBytes "ping"))])),
          []⟩,
        [(strBytes "f", fun _ => ⟨[], .throw_std (strBytes "bad")⟩)], false, -1, false⟩
      (Json.obj
        [(strBytes "id", Json.num 1), (strBytes "method", Json.str (strBytes "execute")),
         (strBytes "params", Json.obj [(strBytes "function", Json.str (strBytes "f"))])])
      (Json.obj [(strBytes "function", Json.str (strBytes "f"))])
      (strBytes "f") (strBytes "bad") (Json.obj []) 1
      (fun _ => ⟨[], .throw_std (strBytes "bad")⟩) [] []
      (by decide) (by decide) rfl rfl rfl rfl rfl rfl rfl rfl rfl).1
  · exact (C2_std_exceptions_contained.2.2.2
      ⟨[], [], [],
        ⟨false,
          frameBytes (Json.dump (Json.obj
            [(strBytes "id", Json.num 2), (strBytes "method", Json.str (strBytes "input")),
             (strBytes "params",
              Json.obj [(strBytes "content", Json.str (strBytes "hi"))])]))
          ++ frameBytes (Json.dump (Json.obj
            [(strBytes "id", Json.num 7), (strBytes "method", Json.str (strBytes "ping"))])),
          []⟩,
        [(strBytes "on_input", fun _ => ⟨[], .throw_std (strBytes "bad")⟩)],
        false, -1, false⟩
      (Json.obj
        [(strBytes "id", Json.num 2), (strBytes "method", Json.str (strBytes "input")),
         (strBytes "params", Json.obj [(strBytes "content", Json.str (strBytes "hi"))])])
      (Json.obj [(strBytes "content", Json.str (strBytes "hi"))])
      (strBytes "hi") (strBytes "bad") 2
      (fun _ => ⟨[], .throw_std (strBytes "bad")⟩) [] []
      (by decide) (by decide) rfl rfl rfl rfl rfl rfl rfl rfl).1

set_option maxRecDepth 100000 in
theorem C10_witness :
    (Plugin.handle_message
        (Json.obj [(strBytes "id", Json.str (strBytes "x")),
                   (strBytes "method", Json.str (strBytes "ping"))])
        ⟨[], [], [], ⟨false, [], []⟩, [], false, -1, false⟩).1
      = some (CppExc.type_error 302) ∧
    (Plugin.handle_message
        (Json.obj [(strBytes "id", Json.bool false),
                   (strBytes "method", Json.str (strBytes "ping"))])
        ⟨[], [], [], ⟨false, [], []⟩, [], false, -1, false⟩).1 = none := by
  constructor
  · rw [((C10_nonnumeric_id ⟨[], [], [], ⟨false, [], []⟩, [], false, -1, false⟩
      (Json.obj [(strBytes "id", Json.str (strBytes "x")),
                 (strBytes "method", Json.str (strBytes "ping"))])
      (strBytes "ping") rfl rfl).1 (Json.str (strBytes "x")) rfl
      (fun n hn => by simp at hn) (fun b hb => by simp at hb)).1]
  · rw [(C10_nonnumeric_id ⟨[], [], [], ⟨false, [], []⟩, [], false, -1, false⟩
      (Json.obj [(strBytes "id", Json.bool false),
                 (strBytes "method", Json.str (strBytes "ping"))])
      (strBytes "ping") rfl rfl).2 false (Json.obj []) rfl rfl]
    rfl

end GAssist
